import Mathlib

/-!
# Placement legality checks of the iCE40 backend (`ice40/arch_place.cc`)

A shallow embedding of `get_net_or_empty`, `logicCellsCompatible`,
`isBelLocationValid` and `isValidBelForCell`, and theorems about them.

Conventions of the embedding:

* a pointer that may be null is an `Option`; dereferencing `none` is the
  error `Fatal.null_deref`;
* a pointer to a net or a cell is modelled by the value it points to: the
  netlist keeps one `NetInfo` per net name, so comparing two net pointers is
  comparing the nets they point to;
* an `std::unordered_map` is an association list read with `List.lookup`;
* an `std::unordered_set<IdString>` is a `Finset IdString`;
* a failed `assert`, a thrown exception and undefined behaviour are values of
  `Fatal`; a function that can hit one returns `Except Fatal Bool`;
* the mutable data a call can touch (the cell table `ctx->cells` and the
  function-local static set `locals`) is passed in and returned explicitly;
* helper functions and types declared in headers that are not part of the
  source file (`cells.h`, `util.h`, the architecture database) are fields of
  `Helpers` and `Context`.
-/

namespace Ice40

/-! ## Data model -/

/-- Identifier string (`IdString`); the default-constructed `IdString()` is the empty one. -/
abbrev IdString := String

/-- Site identifier (`BelId`). -/
abbrev BelId := Nat

/-- Wire identifier (`WireId`). -/
abbrev WireId := Nat

/-- A port of a cell as it appears among the users of a net (`PortRef`). -/
structure PortRef where
  cell : IdString
  port : IdString
deriving DecidableEq, Repr

/-- A net (`NetInfo`): its name and the ports it feeds. -/
structure NetInfo where
  name : IdString
  users : List PortRef
deriving DecidableEq, Repr

/-- A port of a cell (`PortInfo`); `net = none` is the null pointer of an unconnected port. -/
structure PortInfo where
  net : Option NetInfo
deriving DecidableEq, Repr

/-- A cell (`CellInfo`): name, type tag, parameter map and port map. -/
structure CellInfo where
  name : IdString
  type : IdString
  params : List (IdString × String)
  ports : List (IdString × PortInfo)
deriving DecidableEq, Repr

/-- Site types (`BelType`); only `TYPE_ICESTORM_LC` is named by the checks. -/
inductive BelType where
  | TYPE_NONE
  | TYPE_ICESTORM_LC
  | TYPE_SB_IO
  | TYPE_SB_GB
  | TYPE_OTHER (n : Nat)
deriving DecidableEq, Repr

/-- Pin tags of a site (`PortPin`); only `PIN_GLOBAL_BUFFER_OUTPUT` is named by the checks. -/
inductive PortPin where
  | PIN_NONE
  | PIN_GLOBAL_BUFFER_OUTPUT
  | PIN_OTHER (n : Nat)
deriving DecidableEq, Repr

/-- Ways a call can end without returning a verdict. -/
inductive Fatal where
  | assertion
  | out_of_range
  | invalid_argument
  | null_deref
  | empty_back
deriving DecidableEq, Repr

deriving instance DecidableEq for Except

/-- The helper functions of `cells.h` and `util.h` used by the checks; their
bodies are not part of the source file, so they are parameters. -/
structure Helpers where
  bool_or_default : List (IdString × String) → IdString → Bool
  is_global_net : Option NetInfo → Bool
  is_reset_port : PortRef → Bool
  is_enable_port : PortRef → Bool

/-- The cell table `ctx->cells`: names to cell pointers (a pointer may be null). -/
abbrev CellTable := List (IdString × Option CellInfo)

/-- The context: the architecture database queries, the Binding
(`getBelCell`) and the cell table. -/
structure Context where
  getBelType : BelId → BelType
  getBelsAtSameTile : BelId → List BelId
  getBelCell : BelId → Bool → IdString
  getBelPackagePin : BelId → String
  getWireBelPin : BelId → PortPin → WireId
  getWireName : WireId → IdString
  cells : CellTable

/-! ## `get_net_or_empty` -/

/-- Source: `get_net_or_empty`. The net on a port, or null when the cell has no such port. -/
def get_net_or_empty (cell : CellInfo) (port : IdString) : Option NetInfo :=
  match cell.ports.lookup port with
  | some found => found.net
  | none => none

/-! ## `logicCellsCompatible` -/

/-- The local variables of `logicCellsCompatible` that live across loop
iterations, `locals` being the static set. -/
structure TileState where
  dffs_exist : Bool
  dffs_neg : Bool
  cen : Option NetInfo
  clk : Option NetInfo
  sr : Option NetInfo
  locals : Finset IdString

/-- The statement `if (!is_global_net(n) && n != nullptr) locals.insert(n->name);`. -/
def insertLocalCtrl (h : Helpers) (n : Option NetInfo) (locals : Finset IdString) :
    Finset IdString :=
  match n with
  | some net => if !h.is_global_net n then insert net.name locals else locals
  | none => locals

/-- The statement `if (i != nullptr) locals.insert(i->name);`. -/
def insertLocalData (i : Option NetInfo) (locals : Finset IdString) : Finset IdString :=
  match i with
  | some net => insert net.name locals
  | none => locals

/-- The first half of the loop body (the `DFF_ENABLE` block); `none` is `return false`. -/
def ctrlStep (h : Helpers) (st : TileState) (cell : CellInfo) : Option TileState :=
  if h.bool_or_default cell.params "DFF_ENABLE" then
    if !st.dffs_exist then
      let cen := get_net_or_empty cell "CEN"
      let clk := get_net_or_empty cell "CLK"
      let sr := get_net_or_empty cell "SR"
      let locals := insertLocalCtrl h sr (insertLocalCtrl h clk (insertLocalCtrl h cen st.locals))
      some { dffs_exist := true
             dffs_neg := if h.bool_or_default cell.params "NEG_CLK" then true else st.dffs_neg
             cen := cen
             clk := clk
             sr := sr
             locals := locals }
    else
      if st.cen ≠ get_net_or_empty cell "CEN" then none
      else if st.clk ≠ get_net_or_empty cell "CLK" then none
      else if st.sr ≠ get_net_or_empty cell "SR" then none
      else if st.dffs_neg ≠ h.bool_or_default cell.params "NEG_CLK" then none
      else some st
  else some st

/-- The second half of the loop body: the four data inputs go into `locals`. -/
def dataStep (st : TileState) (cell : CellInfo) : TileState :=
  let i0 := get_net_or_empty cell "I0"
  let i1 := get_net_or_empty cell "I1"
  let i2 := get_net_or_empty cell "I2"
  let i3 := get_net_or_empty cell "I3"
  { st with locals :=
      insertLocalData i3 (insertLocalData i2 (insertLocalData i1 (insertLocalData i0 st.locals))) }

/-- The loop `for (auto cell : cells)` followed by `return locals.size() <= 32;`.
Returns the outcome and the content of the static set when the call ends. -/
def logicCellsLoop (h : Helpers) :
    TileState → List (Option CellInfo) → Except Fatal Bool × Finset IdString
  | st, [] => (.ok (decide (st.locals.card ≤ 32)), st.locals)
  | st, none :: _ => (.error .null_deref, st.locals)
  | st, some cell :: rest =>
    match ctrlStep h st cell with
    | none => (.ok false, st.locals)
    | some st1 => logicCellsLoop h (dataStep st1 cell) rest

/-- The call `locals.clear()`: whatever the set held, it is empty afterwards. -/
def clear (_locals : Finset IdString) : Finset IdString := ∅

/-- Source: `logicCellsCompatible`. `locals` is the content of the static set
left by the previous call; `locals.clear()` empties it. -/
def logicCellsCompatible (h : Helpers) (locals : Finset IdString)
    (cells : List (Option CellInfo)) : Except Fatal Bool × Finset IdString :=
  logicCellsLoop h
    { dffs_exist := false, dffs_neg := false, cen := none, clk := none, sr := none,
      locals := clear locals } cells

/-! ## `isValidBelForCell` and `isBelLocationValid` -/

/-- What a call of one of the two entry points leaves behind: the outcome, the
cell table and the static set of `logicCellsCompatible`. -/
structure Ret where
  result : Except Fatal Bool
  cells : CellTable
  locals : Finset IdString

/-- The expression `ctx->cells[name]`: `operator[]` of `std::unordered_map`
returns the stored pointer, and stores a null pointer under a name that has
no entry yet. -/
def cellsIndex (t : CellTable) (name : IdString) : Option CellInfo × CellTable :=
  match t.lookup name with
  | some ci => (ci, t)
  | none => (none, t ++ [(name, none)])

/-- The loop `for (auto bel_other : ctx->getBelsAtSameTile(bel))` of both entry
points: the occupant of every site that has one is looked up in the cell table
and pushed onto `cells`. -/
def collectCells (ctx : Context) :
    List BelId → CellTable → List (Option CellInfo) → List (Option CellInfo) × CellTable
  | [], t, cells => (cells, t)
  | bel_other :: rest, t, cells =>
    let cell_other := ctx.getBelCell bel_other false
    if cell_other ≠ "" then
      let r := cellsIndex t cell_other
      collectCells ctx rest r.2 (cells ++ [r.1])
    else
      collectCells ctx rest t cells

/-- The loop over the users of the global buffer's output net, from the
flags `(is_reset, is_cen)` on entry to the flags on exit. -/
def scanUsers (h : Helpers) : List PortRef → Bool × Bool → Bool × Bool
  | [], flags => flags
  | user :: rest, (is_reset, is_cen) =>
    let is_reset1 := if h.is_reset_port user then true else is_reset
    let is_cen1 := if h.is_enable_port user then true else is_cen
    scanUsers h rest (is_reset1, is_cen1)

/-- The call `std::stoi(std::string("") + c)` on a one-character string: the
value of a decimal digit, and `std::invalid_argument` for any other character. -/
def stoi_char (c : Char) : Except Fatal Int :=
  if c.isDigit then .ok ((c.toNat : Int) - 48) else .error .invalid_argument

/-- The final `if` chain of the `SB_GB` branch. -/
def gbVerdict (is_reset is_cen : Bool) (glb_id : Int) : Bool :=
  if is_reset && is_cen then false
  else if is_reset then decide (Int.tmod glb_id 2 = 0)
  else if is_cen then decide (Int.tmod glb_id 2 = 1)
  else true

/-- Source: `isValidBelForCell`. -/
def isValidBelForCell (h : Helpers) (ctx : Context) (locals : Finset IdString)
    (cell : CellInfo) (bel : BelId) : Ret :=
  if cell.type = "ICESTORM_LC" then
    if ctx.getBelType bel ≠ BelType.TYPE_ICESTORM_LC then
      { result := .error .assertion, cells := ctx.cells, locals := locals }
    else
      let collected := collectCells ctx (ctx.getBelsAtSameTile bel) ctx.cells []
      let cells := collected.1 ++ [some cell]
      let r := logicCellsCompatible h locals cells
      { result := r.1, cells := collected.2, locals := r.2 }
  else if cell.type = "SB_IO" then
    { result := .ok (decide (ctx.getBelPackagePin bel ≠ "")), cells := ctx.cells, locals := locals }
  else if cell.type = "SB_GB" then
    match cell.ports.lookup "GLOBAL_BUFFER_OUTPUT" with
    | none => { result := .error .out_of_range, cells := ctx.cells, locals := locals }
    | some port =>
      match port.net with
      | none => { result := .error .assertion, cells := ctx.cells, locals := locals }
      | some net =>
        let flags := scanUsers h net.users (false, false)
        let glb_net := ctx.getWireName (ctx.getWireBelPin bel PortPin.PIN_GLOBAL_BUFFER_OUTPUT)
        match glb_net.data.getLast? with
        | none => { result := .error .empty_back, cells := ctx.cells, locals := locals }
        | some back =>
          match stoi_char back with
          | .error e => { result := .error e, cells := ctx.cells, locals := locals }
          | .ok glb_id =>
            { result := .ok (gbVerdict flags.1 flags.2 glb_id), cells := ctx.cells,
              locals := locals }
  else
    { result := .ok true, cells := ctx.cells, locals := locals }

/-- Source: `isBelLocationValid`. In the second branch `ctx->cells.at(cellId)`
throws when the name has no entry, and `isValidBelForCell` reads
`cell->type` first, so a stored null pointer is dereferenced at once. -/
def isBelLocationValid (h : Helpers) (ctx : Context) (locals : Finset IdString)
    (bel : BelId) : Ret :=
  if ctx.getBelType bel = BelType.TYPE_ICESTORM_LC then
    let collected := collectCells ctx (ctx.getBelsAtSameTile bel) ctx.cells []
    let r := logicCellsCompatible h locals collected.1
    { result := r.1, cells := collected.2, locals := r.2 }
  else
    let cellId := ctx.getBelCell bel false
    if cellId = "" then
      { result := .ok true, cells := ctx.cells, locals := locals }
    else
      match ctx.cells.lookup cellId with
      | none => { result := .error .out_of_range, cells := ctx.cells, locals := locals }
      | some none => { result := .error .null_deref, cells := ctx.cells, locals := locals }
      | some (some cell) => isValidBelForCell h ctx locals cell bel

/-! ## Concrete helpers and cells used to evaluate the definitions -/

/-- A stand-in for the helpers: a parameter is true when its text is `"1"`, a
net is global when its name starts with `glb`, a user is reset-type on port
`SR` and enable-type on port `CEN`. -/
def demoHelpers : Helpers where
  bool_or_default := fun params key => decide (params.lookup key = some "1")
  is_global_net := fun n =>
    match n with
    | some net => decide (net.name.data.take 3 = ['g', 'l', 'b'])
    | none => false
  is_reset_port := fun u => decide (u.port = "SR")
  is_enable_port := fun u => decide (u.port = "CEN")

/-- A net with the given name and no users. -/
def mkNet (name : IdString) : NetInfo := { name := name, users := [] }

/-- A logic cell from its parameters and the nets on its ports. -/
def mkLC (name : IdString) (params : List (IdString × String))
    (ports : List (IdString × IdString)) : CellInfo :=
  { name := name, type := "ICESTORM_LC", params := params,
    ports := ports.map (fun p => (p.1, { net := some (mkNet p.2) })) }

/-! ## Vocabulary of the properties -/

/-- The cell is sequential: its `DFF_ENABLE` parameter is true. -/
def isSeq (h : Helpers) (c : CellInfo) : Bool := h.bool_or_default c.params "DFF_ENABLE"

/-- The clock polarity of the cell: its `NEG_CLK` parameter. -/
def negClk (h : Helpers) (c : CellInfo) : Bool := h.bool_or_default c.params "NEG_CLK"

/-- Two cells have the same control set: identical `CEN`, `CLK` and `SR` nets
(null included) and equal `NEG_CLK`. -/
def SameControl (h : Helpers) (c1 c2 : CellInfo) : Prop :=
  get_net_or_empty c1 "CEN" = get_net_or_empty c2 "CEN" ∧
  get_net_or_empty c1 "CLK" = get_net_or_empty c2 "CLK" ∧
  get_net_or_empty c1 "SR" = get_net_or_empty c2 "SR" ∧
  negClk h c1 = negClk h c2

instance (h : Helpers) (c1 c2 : CellInfo) : Decidable (SameControl h c1 c2) := by
  unfold SameControl; infer_instance

/-- Every two sequential cells of the list have the same control set. -/
def ControlAgree (h : Helpers) (cells : List CellInfo) : Prop :=
  ∀ c1 ∈ cells, ∀ c2 ∈ cells, isSeq h c1 = true → isSeq h c2 = true → SameControl h c1 c2

/-- The non-null nets on the data inputs `I0..I3` of a cell. -/
def dataNets (c : CellInfo) : List NetInfo :=
  ["I0", "I1", "I2", "I3"].filterMap (get_net_or_empty c)

/-- The non-null, non-global nets on the control inputs `CEN`, `CLK`, `SR` of a cell. -/
def ctrlNets (h : Helpers) (c : CellInfo) : List NetInfo :=
  (["CEN", "CLK", "SR"].filterMap (get_net_or_empty c)).filter
    (fun n => !h.is_global_net (some n))

/-- The nets a cell brings into the accounting: its data nets, and its
non-global control nets when it is sequential. -/
def cellNets (h : Helpers) (c : CellInfo) : List NetInfo :=
  dataNets c ++ (if isSeq h c then ctrlNets h c else [])

/-- The set of identities (names) of a list of nets. -/
def netNames (nets : List NetInfo) : Finset IdString := (nets.map NetInfo.name).toFinset

/-- The accounted set of a list of cells: every net on a data input of any
cell, and the non-global control nets of the sequential cells, by identity. -/
def accounted (h : Helpers) (cells : List CellInfo) : Finset IdString :=
  netNames (cells.flatMap (cellNets h))

/-- The nets on the data inputs of the cells of a list, by identity. -/
def dataNames (cells : List CellInfo) : Finset IdString :=
  netNames (cells.flatMap dataNets)

/-- The reference control set recorded in the state is the cell's control set. -/
def RefAgrees (h : Helpers) (st : TileState) (c : CellInfo) : Prop :=
  st.cen = get_net_or_empty c "CEN" ∧ st.clk = get_net_or_empty c "CLK" ∧
  st.sr = get_net_or_empty c "SR" ∧ st.dffs_neg = negClk h c

/-- The pointer the cell table yields for a name: the stored pointer, and
null for a name without an entry (what `operator[]` stores and returns). -/
def cellPtr (t : CellTable) (name : IdString) : Option CellInfo := (t.lookup name).join

/-- The cell pointer collected for a site: nothing for a site without an
occupant, the table's pointer for the occupant's name otherwise. -/
def occupantPtr (ctx : Context) (b : BelId) : Option (Option CellInfo) :=
  if ctx.getBelCell b false ≠ "" then some (cellPtr ctx.cells (ctx.getBelCell b false)) else none

/-- The cell pointers collected for a list of sites, in order. -/
def occupants (ctx : Context) (bels : List BelId) : List (Option CellInfo) :=
  bels.filterMap (occupantPtr ctx)

/-- The cells bound to the sites of the tile of `bel`, `bel` itself included. -/
def tileCells (ctx : Context) (bel : BelId) : List (Option CellInfo) :=
  occupants ctx (ctx.getBelsAtSameTile bel)

/-- The cells bound to the other sites of the tile of `bel`, `bel` itself left out. -/
def otherCells (ctx : Context) (bel : BelId) : List (Option CellInfo) :=
  occupants ctx ((ctx.getBelsAtSameTile bel).filter (fun b => b ≠ bel))

/-- Cell `c` is bound to site `b`: the site has an occupant name and the cell
table maps that name to `c`. -/
def BoundTo (ctx : Context) (b : BelId) (c : CellInfo) : Prop :=
  ctx.getBelCell b false ≠ "" ∧ ctx.cells.lookup (ctx.getBelCell b false) = some (some c)

/-- The name of the global-buffer output wire of a site. -/
def glbWireName (ctx : Context) (bel : BelId) : IdString :=
  ctx.getWireName (ctx.getWireBelPin bel PortPin.PIN_GLOBAL_BUFFER_OUTPUT)

/-- The wire name ends in the decimal numeral of `n`. -/
def EndsInDecimal (name : IdString) (n : Nat) : Prop := ∃ pre : String, name = pre ++ Nat.repr n

/-- The users of the net contain a reset-type port. -/
def hasReset (h : Helpers) (net : NetInfo) : Bool := net.users.any h.is_reset_port

/-- The users of the net contain an enable-type port. -/
def hasEnable (h : Helpers) (net : NetInfo) : Bool := net.users.any h.is_enable_port

/-- The non-global nets on the data inputs of the cells of a list, by identity. -/
def localDataNames (h : Helpers) (cells : List CellInfo) : Finset IdString :=
  netNames ((cells.flatMap dataNets).filter (fun n => !h.is_global_net (some n)))

/-! ## Concrete contexts used to evaluate the definitions -/

/-- A combinational logic cell with four connected data inputs. -/
def lut4 (name i0 i1 i2 i3 : IdString) : CellInfo :=
  mkLC name [] [("I0", i0), ("I1", i1), ("I2", i2), ("I3", i3)]

/-- Eight combinational cells whose data inputs use 32 distinct non-global nets. -/
def fullTile : List CellInfo :=
  [lut4 "l0" "n00" "n01" "n02" "n03", lut4 "l1" "n04" "n05" "n06" "n07",
   lut4 "l2" "n08" "n09" "n10" "n11", lut4 "l3" "n12" "n13" "n14" "n15",
   lut4 "l4" "n16" "n17" "n18" "n19", lut4 "l5" "n20" "n21" "n22" "n23",
   lut4 "l6" "n24" "n25" "n26" "n27", lut4 "l7" "n28" "n29" "n30" "n31"]

/-- A combinational cell with one data input, on the non-global net `n32`. -/
def lutLocal : CellInfo := mkLC "l8" [] [("I0", "n32")]

/-- A combinational cell with one data input, on the global net `glb_clk`. -/
def lutGlobal : CellInfo := mkLC "l8" [] [("I0", "glb_clk")]

/-- A small fabric: sites 0..7 are the logic sites of one tile, site 8 is an
IO site with package pin `A1`, site 9 an IO site without a pin, and sites
10, 11, ... are global-buffer sites whose output wires are `glb_netwk_0`,
`glb_netwk_1`, ... The Binding and the cell table are given. -/
def demoCtx (binding : List (BelId × IdString)) (cells : CellTable) : Context where
  getBelType := fun b =>
    if b < 8 then BelType.TYPE_ICESTORM_LC
    else if b < 10 then BelType.TYPE_SB_IO else BelType.TYPE_SB_GB
  getBelsAtSameTile := fun b => if b < 8 then List.range 8 else [b]
  getBelCell := fun b _ => (binding.lookup b).getD ""
  getBelPackagePin := fun b => if b = 8 then "A1" else ""
  getWireBelPin := fun b _ => b
  getWireName := fun w => "glb_netwk_" ++ Nat.repr (w - 10)
  cells := cells

/-- A sequential logic cell clocked by net `k1`. -/
def lcA : CellInfo := mkLC "a" [("DFF_ENABLE", "1")] [("CLK", "k1"), ("CEN", "e"), ("I0", "x")]

/-- A sequential logic cell clocked by net `k2`, with the clock enable of `lcA`. -/
def lcB : CellInfo := mkLC "b" [("DFF_ENABLE", "1")] [("CLK", "k2"), ("CEN", "e"), ("I0", "x")]

/-- A sequential logic cell with the control set of `lcA` and other data inputs. -/
def lcC : CellInfo :=
  mkLC "c" [("DFF_ENABLE", "1")] [("CLK", "k1"), ("CEN", "e"), ("I0", "y"), ("I1", "z")]

/-- An IO cell. -/
def ioCell : CellInfo := { name := "io", type := "SB_IO", params := [], ports := [] }

/-- A global buffer whose output net feeds the given ports. -/
def gbCell (users : List PortRef) : CellInfo :=
  { name := "gb", type := "SB_GB", params := [],
    ports := [("GLOBAL_BUFFER_OUTPUT", { net := some { name := "glb_out", users := users } })] }

/-- An IO cell with a parameter and a connected port. -/
def ioCellWired : CellInfo :=
  { name := "io2", type := "SB_IO", params := [("PIN_TYPE", "1")],
    ports := [("D_OUT_0", { net := some (mkNet "x") })] }

/-- A global buffer without any port. -/
def gbNoPort : CellInfo := { name := "gb", type := "SB_GB", params := [], ports := [] }

/-- A global buffer whose output port is there but unconnected. -/
def gbUnconnected : CellInfo :=
  { name := "gb", type := "SB_GB", params := [],
    ports := [("GLOBAL_BUFFER_OUTPUT", { net := none })] }

/-- The demo fabric with other wire names: the global-buffer output wire of
every site is called `io_global`, a name that does not end in a digit. -/
def demoCtxNoDigit : Context :=
  { demoCtx [] [] with getWireName := fun _ => "io_global" }

/-- A global buffer whose output net feeds a reset-type and an enable-type port. -/
def gbBoth : CellInfo := gbCell [⟨"a", "SR"⟩, ⟨"b", "CEN"⟩]

/-- A global buffer whose output net feeds neither kind of port. -/
def gbNeither : CellInfo := gbCell [⟨"a", "I0"⟩]

/-- A block-RAM cell, a type without a rule of its own. -/
def ramCell : CellInfo :=
  { name := "ram", type := "SB_RAM40_4K", params := [], ports := [("RCLK", { net := none })] }

/-- A sequential logic cell with every control and data input on a net of its own. -/
def lcWide : CellInfo :=
  mkLC "w" [("DFF_ENABLE", "1"), ("NEG_CLK", "1")]
    [("CEN", "e"), ("CLK", "k"), ("SR", "r"), ("I0", "a"), ("I1", "b"), ("I2", "c"), ("I3", "d")]

/-- The demo fabric with `lcA` at site 0, `lcB` at site 1, and site 2 bound
to the name `ghost`, for which the cell table has no entry. -/
def ctxGhost : Context :=
  demoCtx [(0, "a"), (1, "b"), (2, "ghost")] [("a", some lcA), ("b", some lcB)]

/-- The demo fabric with `lcA` bound to site 0 and `lcB` not yet placed. -/
def ctxOccupied : Context := demoCtx [(0, "a")] [("a", some lcA), ("b", some lcB)]

/-- The demo fabric after `lcB` has taken site 0 from `lcA`. -/
def ctxReplaced : Context := demoCtx [(0, "b")] [("a", some lcA), ("b", some lcB)]

/-! ## The loop of `logicCellsCompatible`, characterised -/

theorem netNames_append (a b : List NetInfo) : netNames (a ++ b) = netNames a ∪ netNames b := by
  simp [netNames, List.toFinset_append]

theorem netNames_nil : netNames [] = ∅ := rfl

theorem insertLocalData_eq (i : Option NetInfo) (locals : Finset IdString) :
    insertLocalData i locals = locals ∪ netNames i.toList := by
  cases i <;> simp [insertLocalData, netNames, Finset.insert_eq, Finset.union_comm]

theorem insertLocalCtrl_eq (h : Helpers) (n : Option NetInfo) (locals : Finset IdString) :
    insertLocalCtrl h n locals
      = locals ∪ netNames (n.toList.filter (fun n => !h.is_global_net (some n))) := by
  cases n with
  | none => simp [insertLocalCtrl, netNames]
  | some net =>
    by_cases hg : h.is_global_net (some net) = true <;>
      simp [insertLocalCtrl, netNames, hg, Finset.insert_eq, Finset.union_comm]

theorem filterMap_toList {α β : Type} (f : α → Option β) (l : List α) :
    l.filterMap f = l.flatMap (fun a => (f a).toList) := by
  induction l with
  | nil => rfl
  | cons a l ih => cases hfa : f a <;> simp [List.filterMap_cons, hfa, ih]

theorem dataStep_locals (st : TileState) (c : CellInfo) :
    (dataStep st c).locals = st.locals ∪ netNames (dataNets c) := by
  simp only [dataStep, insertLocalData_eq, dataNets, filterMap_toList, List.flatMap_cons,
    List.flatMap_nil, List.append_nil, netNames_append, Finset.union_assoc]

theorem firstSeq_locals (h : Helpers) (c : CellInfo) (locals : Finset IdString) :
    insertLocalCtrl h (get_net_or_empty c "SR")
      (insertLocalCtrl h (get_net_or_empty c "CLK")
        (insertLocalCtrl h (get_net_or_empty c "CEN") locals))
      = locals ∪ netNames (ctrlNets h c) := by
  simp only [insertLocalCtrl_eq, ctrlNets, filterMap_toList, List.flatMap_cons,
    List.flatMap_nil, List.append_nil, netNames_append, Finset.union_assoc, List.filter_append]

theorem dataNames_nil : dataNames [] = ∅ := rfl

theorem dataNames_cons (c : CellInfo) (cells : List CellInfo) :
    dataNames (c :: cells) = netNames (dataNets c) ∪ dataNames cells := by
  simp [dataNames, netNames_append]

theorem accounted_nil (h : Helpers) : accounted h [] = ∅ := rfl

theorem accounted_cons (h : Helpers) (c : CellInfo) (cells : List CellInfo) :
    accounted h (c :: cells) = netNames (cellNets h c) ∪ accounted h cells := by
  simp [accounted, netNames_append]

theorem ctrlStep_not_seq (h : Helpers) (st : TileState) (c : CellInfo)
    (hc : isSeq h c = false) : ctrlStep h st c = some st := by
  unfold isSeq at hc
  simp [ctrlStep, hc]

theorem ctrlStep_seen_agree (h : Helpers) (st : TileState) (c : CellInfo)
    (hs : st.dffs_exist = true) (hc : isSeq h c = true) (ha : RefAgrees h st c) :
    ctrlStep h st c = some st := by
  unfold isSeq at hc
  obtain ⟨h1, h2, h3, h4⟩ := ha
  unfold negClk at h4
  simp [ctrlStep, hc, hs, h1, h2, h3, h4]

theorem ctrlStep_seen_differ (h : Helpers) (st : TileState) (c : CellInfo)
    (hs : st.dffs_exist = true) (hc : isSeq h c = true) (ha : ¬ RefAgrees h st c) :
    ctrlStep h st c = none := by
  unfold isSeq at hc
  unfold RefAgrees negClk at ha
  simp only [ctrlStep, hc, hs]
  by_cases h1 : st.cen = get_net_or_empty c "CEN"
  · by_cases h2 : st.clk = get_net_or_empty c "CLK"
    · by_cases h3 : st.sr = get_net_or_empty c "SR"
      · by_cases h4 : st.dffs_neg = h.bool_or_default c.params "NEG_CLK"
        · exact absurd ⟨h1, h2, h3, h4⟩ ha
        · simp [h1, h2, h3, h4]
      · simp [h1, h2, h3]
    · simp [h1, h2]
  · simp [h1]

theorem ctrlStep_first (h : Helpers) (st : TileState) (c : CellInfo)
    (hs : st.dffs_exist = false) (hn : st.dffs_neg = false) (hc : isSeq h c = true) :
    ∃ st1, ctrlStep h st c = some st1 ∧ st1.dffs_exist = true ∧ RefAgrees h st1 c ∧
      st1.locals = st.locals ∪ netNames (ctrlNets h c) := by
  unfold isSeq at hc
  refine ⟨_, by simp only [ctrlStep, hc, hs]; rfl, rfl, ⟨rfl, rfl, rfl, ?_⟩, ?_⟩
  · simp only [negClk, hn]
    cases h.bool_or_default c.params "NEG_CLK" <;> rfl
  · exact firstSeq_locals h c st.locals

/-- Once a sequential cell has been seen, the loop returns a verdict on a list
of non-null cells: true exactly when every later sequential cell repeats the
reference and the data nets keep the set within 32. -/
theorem loop_seen (h : Helpers) (cells : List CellInfo) :
    ∀ st : TileState, st.dffs_exist = true →
      ∃ b, (logicCellsLoop h st (cells.map some)).1 = .ok b ∧
        (b = true ↔ (∀ c ∈ cells, isSeq h c = true → RefAgrees h st c) ∧
          (st.locals ∪ dataNames cells).card ≤ 32) := by
  induction cells with
  | nil =>
    intro st _
    exact ⟨_, rfl, by simp [dataNames_nil]⟩
  | cons c rest ih =>
    intro st hs
    have step : ∀ st1, ctrlStep h st c = some st1 → st1 = st →
        ∃ b, (logicCellsLoop h st (List.map some (c :: rest))).1 = .ok b ∧
          (b = true ↔ (∀ c ∈ rest, isSeq h c = true → RefAgrees h st c) ∧
            (st.locals ∪ dataNames (c :: rest)).card ≤ 32) := by
      intro st1 h1 e
      subst e
      obtain ⟨b, hb, hiff⟩ := ih (dataStep st1 c) hs
      refine ⟨b, by simp only [List.map_cons, logicCellsLoop, h1]; exact hb, ?_⟩
      rw [hiff, dataStep_locals, dataNames_cons, Finset.union_assoc]
      rfl
    by_cases hc : isSeq h c = true
    · by_cases ha : RefAgrees h st c
      · obtain ⟨b, hb, hiff⟩ := step st (ctrlStep_seen_agree h st c hs hc ha) rfl
        refine ⟨b, hb, ?_⟩
        rw [hiff]
        simp [hc, ha]
      · refine ⟨false, by simp [logicCellsLoop, ctrlStep_seen_differ h st c hs hc ha], ?_⟩
        simp [hc, ha]
    · have hc2 : isSeq h c = false := by simpa using hc
      obtain ⟨b, hb, hiff⟩ := step st (ctrlStep_not_seq h st c hc2) rfl
      refine ⟨b, hb, ?_⟩
      rw [hiff]
      simp [hc2]

theorem SameControl.symm {h : Helpers} {c1 c2 : CellInfo} (hs : SameControl h c1 c2) :
    SameControl h c2 c1 :=
  ⟨hs.1.symm, hs.2.1.symm, hs.2.2.1.symm, hs.2.2.2.symm⟩

theorem SameControl.trans {h : Helpers} {c1 c2 c3 : CellInfo} (h12 : SameControl h c1 c2)
    (h23 : SameControl h c2 c3) : SameControl h c1 c3 :=
  ⟨h12.1.trans h23.1, h12.2.1.trans h23.2.1, h12.2.2.1.trans h23.2.2.1,
    h12.2.2.2.trans h23.2.2.2⟩

theorem SameControl.refl (h : Helpers) (c : CellInfo) : SameControl h c c :=
  ⟨rfl, rfl, rfl, rfl⟩

theorem SameControl.ctrlNets_eq {h : Helpers} {c1 c2 : CellInfo} (hs : SameControl h c1 c2) :
    ctrlNets h c1 = ctrlNets h c2 := by
  obtain ⟨h1, h2, h3, _⟩ := hs
  simp only [ctrlNets, filterMap_toList, List.flatMap_cons, List.flatMap_nil, h1, h2, h3]

theorem sameControl_of_refAgrees {h : Helpers} {st : TileState} {c1 c2 : CellInfo}
    (h1 : RefAgrees h st c1) (h2 : RefAgrees h st c2) : SameControl h c1 c2 :=
  ⟨h1.1.symm.trans h2.1, h1.2.1.symm.trans h2.2.1, h1.2.2.1.symm.trans h2.2.2.1,
    h1.2.2.2.symm.trans h2.2.2.2⟩

theorem refAgrees_of_sameControl {h : Helpers} {st : TileState} {c1 c2 : CellInfo}
    (h1 : RefAgrees h st c1) (h2 : SameControl h c1 c2) : RefAgrees h st c2 :=
  ⟨h1.1.trans h2.1, h1.2.1.trans h2.2.1, h1.2.2.1.trans h2.2.2.1, h1.2.2.2.trans h2.2.2.2⟩

/-- With a sequential head, the list agrees exactly when every sequential
cell of the tail has the head's control set. -/
theorem controlAgree_cons_seq (h : Helpers) (c : CellInfo) (rest : List CellInfo)
    (hc : isSeq h c = true) :
    ControlAgree h (c :: rest) ↔ ∀ d ∈ rest, isSeq h d = true → SameControl h c d := by
  constructor
  · intro ha d hd hsd
    exact ha c (List.mem_cons_self _ _) d (List.mem_cons_of_mem _ hd) hc hsd
  · intro ha c1 h1 c2 h2 s1 s2
    have key : ∀ d ∈ c :: rest, isSeq h d = true → SameControl h c d := by
      intro d hd hsd
      rcases List.mem_cons.mp hd with e | hd
      · subst e; exact SameControl.refl h d
      · exact ha d hd hsd
    exact (key c1 h1 s1).symm.trans (key c2 h2 s2)

/-- A non-sequential head plays no part in the agreement of the list. -/
theorem controlAgree_cons_not_seq (h : Helpers) (c : CellInfo) (rest : List CellInfo)
    (hc : isSeq h c = false) : ControlAgree h (c :: rest) ↔ ControlAgree h rest := by
  constructor
  · intro ha c1 h1 c2 h2 s1 s2
    exact ha c1 (List.mem_cons_of_mem _ h1) c2 (List.mem_cons_of_mem _ h2) s1 s2
  · intro ha c1 h1 c2 h2 s1 s2
    rcases List.mem_cons.mp h1 with e | h1
    · subst e; rw [hc] at s1; cases s1
    rcases List.mem_cons.mp h2 with e | h2
    · subst e; rw [hc] at s2; cases s2
    exact ha c1 h1 c2 h2 s1 s2

theorem dataNames_subset_accounted (h : Helpers) (cells : List CellInfo) :
    dataNames cells ⊆ accounted h cells := by
  induction cells with
  | nil => simp [dataNames_nil]
  | cons c rest ih =>
    rw [dataNames_cons, accounted_cons, cellNets, netNames_append, Finset.union_assoc]
    exact Finset.union_subset_union (Finset.Subset.refl _)
      (ih.trans Finset.subset_union_right)

/-- When every sequential cell of the list has the control nets `X`, the
accounted set adds nothing to the data nets beyond `X`. -/
theorem accounted_subset_of_ctrl (h : Helpers) (X : List NetInfo) (cells : List CellInfo)
    (hX : ∀ d ∈ cells, isSeq h d = true → ctrlNets h d = X) :
    accounted h cells ⊆ netNames X ∪ dataNames cells := by
  induction cells with
  | nil => simp [accounted_nil]
  | cons c rest ih =>
    have ih2 := ih (fun d hd => hX d (List.mem_cons_of_mem _ hd))
    rw [dataNames_cons, accounted_cons, cellNets, netNames_append]
    have hctrl : netNames (if isSeq h c = true then ctrlNets h c else []) ⊆ netNames X := by
      by_cases hc : isSeq h c = true
      · simp [hc, hX c (List.mem_cons_self _ _) hc]
      · simp [hc, netNames_nil]
    intro x hx
    simp only [Finset.mem_union] at hx ⊢
    rcases hx with (hx | hx) | hx
    · exact Or.inr (Or.inl hx)
    · exact Or.inl (hctrl hx)
    · rcases Finset.mem_union.mp (ih2 hx) with hx | hx
      · exact Or.inl hx
      · exact Or.inr (Or.inr hx)

/-- Before any sequential cell has been seen, the loop returns a verdict on a
list of non-null cells: true exactly when the sequential cells agree and the
accounted set stays within 32. -/
theorem loop_unseen (h : Helpers) (cells : List CellInfo) :
    ∀ st : TileState, st.dffs_exist = false → st.dffs_neg = false →
      ∃ b, (logicCellsLoop h st (cells.map some)).1 = .ok b ∧
        (b = true ↔ ControlAgree h cells ∧ (st.locals ∪ accounted h cells).card ≤ 32) := by
  induction cells with
  | nil =>
    intro st _ _
    exact ⟨_, rfl, by simp [accounted_nil, ControlAgree]⟩
  | cons c rest ih =>
    intro st hs hn
    by_cases hc : isSeq h c = true
    · obtain ⟨st1, e1, hs1, hr1, hl1⟩ := ctrlStep_first h st c hs hn hc
      obtain ⟨b, hb, hiff⟩ := loop_seen h rest (dataStep st1 c) hs1
      refine ⟨b, by simp only [List.map_cons, logicCellsLoop, e1]; exact hb, ?_⟩
      rw [hiff, controlAgree_cons_seq h c rest hc, dataStep_locals, hl1]
      have hagree : (∀ d ∈ rest, isSeq h d = true → RefAgrees h (dataStep st1 c) d) ↔
          ∀ d ∈ rest, isSeq h d = true → SameControl h c d := by
        constructor
        · intro ha d hd hsd
          exact sameControl_of_refAgrees hr1 (ha d hd hsd)
        · intro ha d hd hsd
          exact refAgrees_of_sameControl hr1 (ha d hd hsd)
      rw [hagree]
      refine and_congr_right (fun ha => ?_)
      have hset : st.locals ∪ netNames (ctrlNets h c) ∪ netNames (dataNets c) ∪ dataNames rest
          = st.locals ∪ accounted h (c :: rest) := by
        have hsub := accounted_subset_of_ctrl h (ctrlNets h c) rest
          (fun d hd hsd => (ha d hd hsd).ctrlNets_eq.symm)
        have hsup := dataNames_subset_accounted h rest
        rw [accounted_cons, cellNets, netNames_append]
        simp only [hc, if_true]
        ext x
        simp only [Finset.mem_union]
        constructor
        · rintro (((hx | hx) | hx) | hx)
          · exact Or.inl hx
          · exact Or.inr (Or.inl (Or.inr hx))
          · exact Or.inr (Or.inl (Or.inl hx))
          · exact Or.inr (Or.inr (hsup hx))
        · rintro (hx | (hx | hx) | hx)
          · exact Or.inl (Or.inl (Or.inl hx))
          · exact Or.inl (Or.inr hx)
          · exact Or.inl (Or.inl (Or.inr hx))
          · rcases Finset.mem_union.mp (hsub hx) with hx | hx
            · exact Or.inl (Or.inl (Or.inr hx))
            · exact Or.inr hx
      rw [hset]
    · have hc2 : isSeq h c = false := by simpa using hc
      obtain ⟨b, hb, hiff⟩ := ih (dataStep st c) hs hn
      refine ⟨b, ?_, ?_⟩
      · simp only [List.map_cons, logicCellsLoop, ctrlStep_not_seq h st c hc2]
        exact hb
      · rw [hiff, controlAgree_cons_not_seq h c rest hc2, dataStep_locals, accounted_cons,
          cellNets, netNames_append]
        simp [hc2, netNames_nil, Finset.union_assoc]

/-- The checker on a list of non-null cells: it returns a verdict, and the
verdict is true exactly when the sequential cells agree and the accounted set
has at most 32 elements, whatever the static set held before the call. -/
theorem logicCellsCompatible_spec (h : Helpers) (locals : Finset IdString)
    (cells : List CellInfo) :
    ∃ b, (logicCellsCompatible h locals (cells.map some)).1 = .ok b ∧
      (b = true ↔ ControlAgree h cells ∧ (accounted h cells).card ≤ 32) := by
  obtain ⟨b, hb, hiff⟩ := loop_unseen h cells
    { dffs_exist := false, dffs_neg := false, cen := none, clk := none, sr := none,
      locals := clear locals } rfl rfl
  refine ⟨b, hb, ?_⟩
  rw [hiff]
  simp [clear]

/-! ## The collection loop of the entry points -/

theorem cellPtr_cellsIndex (t : CellTable) (name k : IdString) :
    cellPtr (cellsIndex t name).2 k = cellPtr t k := by
  unfold cellsIndex cellPtr
  cases hl : t.lookup name with
  | some ci => rfl
  | none =>
    simp only [List.lookup_append]
    cases hk : t.lookup k with
    | some v => rfl
    | none =>
      by_cases e : k = name
      · subst e; simp [List.lookup_cons]
      · have : (k == name) = false := by simpa using e
        simp [List.lookup_cons, this]

theorem cellsIndex_fst (t : CellTable) (name : IdString) :
    (cellsIndex t name).1 = cellPtr t name := by
  unfold cellsIndex cellPtr
  cases hl : t.lookup name <;> rfl

/-- The collection loop pushes, for every occupied site in order, the pointer
the cell table had for the occupant when the call started. -/
theorem collectCells_fst (ctx : Context) (bels : List BelId) :
    ∀ (t : CellTable) (acc : List (Option CellInfo)),
      (∀ k, cellPtr t k = cellPtr ctx.cells k) →
      (collectCells ctx bels t acc).1 = acc ++ occupants ctx bels := by
  induction bels with
  | nil => intro t acc _; simp [collectCells, occupants]
  | cons b rest ih =>
    intro t acc ht
    by_cases hb : ctx.getBelCell b false = ""
    · have := ih t acc ht
      simp only [collectCells, hb, occupants, List.filterMap_cons, occupantPtr] at this ⊢
      simpa using this
    · have := ih (cellsIndex t (ctx.getBelCell b false)).2
        (acc ++ [(cellsIndex t (ctx.getBelCell b false)).1])
        (fun k => (cellPtr_cellsIndex t _ k).trans (ht k))
      simp only [collectCells, occupants, List.filterMap_cons, occupantPtr, hb, ne_eq,
        not_false_eq_true, if_true] at this ⊢
      rw [this, cellsIndex_fst, ht]
      simp

theorem collectCells_tile (ctx : Context) (bel : BelId) :
    (collectCells ctx (ctx.getBelsAtSameTile bel) ctx.cells []).1 = tileCells ctx bel := by
  rw [collectCells_fst ctx _ ctx.cells [] (fun _ => rfl)]
  rfl

/-- A true verdict of the loop means no null pointer was in the list. -/
theorem loop_true_nonnull (h : Helpers) (l : List (Option CellInfo)) :
    ∀ st : TileState, (logicCellsLoop h st l).1 = .ok true →
      ∃ cells : List CellInfo, l = cells.map some := by
  induction l with
  | nil => intro _ _; exact ⟨[], rfl⟩
  | cons p rest ih =>
    intro st hv
    cases p with
    | none => simp [logicCellsLoop] at hv
    | some c =>
      cases hstep : ctrlStep h st c with
      | none => simp [logicCellsLoop, hstep] at hv
      | some st1 =>
        simp only [logicCellsLoop, hstep] at hv
        obtain ⟨cells, e⟩ := ih _ hv
        exact ⟨c :: cells, by simp [e]⟩

/-! ## The logic-tile checker: settled claims -/

/-- C1: on every list of logic cells the checker returns a verdict, and the
verdict is true if and only if (a) every two cells of the list whose
`DFF_ENABLE` is true have identical `CEN`, `CLK` and `SR` nets (an absent port
counting as null) and equal `NEG_CLK`, and (b) the set of the nets on the
`I0..I3` ports of all cells together with the non-null non-global `CEN`,
`CLK`, `SR` nets of the sequential cells, nets counted by identity, has at
most 32 elements. -/
theorem logicCellsCompatible_reference (h : Helpers) (locals : Finset IdString)
    (cells : List CellInfo) :
    (∃ b, (logicCellsCompatible h locals (cells.map some)).1 = .ok b) ∧
    ((logicCellsCompatible h locals (cells.map some)).1 = .ok true ↔
      (∀ c1 ∈ cells, ∀ c2 ∈ cells, isSeq h c1 = true → isSeq h c2 = true →
        get_net_or_empty c1 "CEN" = get_net_or_empty c2 "CEN" ∧
        get_net_or_empty c1 "CLK" = get_net_or_empty c2 "CLK" ∧
        get_net_or_empty c1 "SR" = get_net_or_empty c2 "SR" ∧
        negClk h c1 = negClk h c2) ∧
      (accounted h cells).card ≤ 32) := by
  obtain ⟨b, hb, hiff⟩ := logicCellsCompatible_spec h locals cells
  refine ⟨⟨b, hb⟩, ?_⟩
  rw [hb, Except.ok.injEq, hiff]
  rfl

theorem mem_tileCells_of_boundTo (ctx : Context) (bel b : BelId) (c : CellInfo)
    (hb : b ∈ ctx.getBelsAtSameTile bel) (ho : BoundTo ctx b c) :
    some c ∈ tileCells ctx bel := by
  unfold tileCells occupants
  rw [List.mem_filterMap]
  refine ⟨b, hb, ?_⟩
  obtain ⟨hne, hl⟩ := ho
  simp [occupantPtr, hne, cellPtr, hl]

theorem localDataNames_subset_accounted (h : Helpers) (cells : List CellInfo) :
    localDataNames h cells ⊆ accounted h cells := by
  refine Finset.Subset.trans ?_ (dataNames_subset_accounted h cells)
  intro x hx
  simp only [localDataNames, dataNames, netNames, List.mem_toFinset, List.mem_map,
    List.mem_filter] at hx ⊢
  obtain ⟨n, ⟨hn, _⟩, e⟩ := hx
  exact ⟨n, hn, e⟩

/-- C3: when `isBelLocationValid` returns true for a logic-type site, any two
cells bound to sites of that site's tile whose `DFF_ENABLE` is true have the
same `CEN` net, the same `CLK` net, the same `SR` net (null included) and the
same `NEG_CLK`. -/
theorem isBelLocationValid_shared_control (h : Helpers) (ctx : Context)
    (locals : Finset IdString) (bel b1 b2 : BelId) (c1 c2 : CellInfo)
    (hlc : ctx.getBelType bel = BelType.TYPE_ICESTORM_LC)
    (hv : (isBelLocationValid h ctx locals bel).result = .ok true)
    (hb1 : b1 ∈ ctx.getBelsAtSameTile bel) (hb2 : b2 ∈ ctx.getBelsAtSameTile bel)
    (ho1 : BoundTo ctx b1 c1) (ho2 : BoundTo ctx b2 c2)
    (hs1 : isSeq h c1 = true) (hs2 : isSeq h c2 = true) :
    get_net_or_empty c1 "CEN" = get_net_or_empty c2 "CEN" ∧
    get_net_or_empty c1 "CLK" = get_net_or_empty c2 "CLK" ∧
    get_net_or_empty c1 "SR" = get_net_or_empty c2 "SR" ∧
    negClk h c1 = negClk h c2 := by
  simp only [isBelLocationValid, hlc, if_true, collectCells_tile] at hv
  obtain ⟨cells, hcells⟩ := loop_true_nonnull h _ _ hv
  rw [hcells] at hv
  obtain ⟨b, hb, hiff⟩ := logicCellsCompatible_spec h locals cells
  rw [hb, Except.ok.injEq] at hv
  have hagree := (hiff.mp hv).1
  have m1 := mem_tileCells_of_boundTo ctx bel b1 c1 hb1 ho1
  have m2 := mem_tileCells_of_boundTo ctx bel b2 c2 hb2 ho2
  rw [hcells, List.mem_map] at m1 m2
  obtain ⟨d1, hd1, e1⟩ := m1
  obtain ⟨d2, hd2, e2⟩ := m2
  cases e1
  cases e2
  exact hagree c1 hd1 c2 hd2 hs1 hs2

/-- Witness of C3: sites 0 and 3 of the demo tile hold the sequential cells
`lcA` and `lcC`; the site is accepted and the two control sets coincide. -/
theorem isBelLocationValid_shared_control_witness :
    (isBelLocationValid demoHelpers
        (demoCtx [(0, "a"), (3, "c")] [("a", some lcA), ("c", some lcC)]) ∅ 0).result
      = .ok true ∧
    (get_net_or_empty lcA "CEN" = get_net_or_empty lcC "CEN" ∧
     get_net_or_empty lcA "CLK" = get_net_or_empty lcC "CLK" ∧
     get_net_or_empty lcA "SR" = get_net_or_empty lcC "SR" ∧
     negClk demoHelpers lcA = negClk demoHelpers lcC) :=
  ⟨by decide,
   isBelLocationValid_shared_control demoHelpers
     (demoCtx [(0, "a"), (3, "c")] [("a", some lcA), ("c", some lcC)]) ∅ 0 0 3 lcA lcC
     (by decide) (by decide) (by decide) (by decide)
     ⟨by decide, by decide⟩ ⟨by decide, by decide⟩ (by decide) (by decide)⟩

/-- C4: when the checker returns true on a list of logic cells, sequential or
not, the number of distinct non-global nets on the `I0..I3` inputs of the
cells is at most 32; and a list whose data inputs reference 33 or more
distinct non-global nets is rejected. -/
theorem logicCellsCompatible_fanin_budget (h : Helpers) (locals : Finset IdString)
    (cells : List CellInfo) :
    ((logicCellsCompatible h locals (cells.map some)).1 = .ok true →
      (localDataNames h cells).card ≤ 32) ∧
    (33 ≤ (localDataNames h cells).card →
      (logicCellsCompatible h locals (cells.map some)).1 = .ok false) := by
  obtain ⟨b, hb, hiff⟩ := logicCellsCompatible_spec h locals cells
  have hle : b = true → (localDataNames h cells).card ≤ 32 := fun hv =>
    (Finset.card_le_card (localDataNames_subset_accounted h cells)).trans (hiff.mp hv).2
  rw [hb]
  refine ⟨fun hv => hle (by simpa using hv), fun h33 => ?_⟩
  cases b with
  | false => rfl
  | true => have := hle rfl; omega

/-- Witness of C4: the eight cells of `fullTile` (32 nets) are accepted and
stay within the budget; with a ninth cell on a 33rd net the list is rejected. -/
theorem logicCellsCompatible_fanin_budget_witness :
    (localDataNames demoHelpers fullTile).card ≤ 32 ∧
    (logicCellsCompatible demoHelpers ∅ ((fullTile ++ [lutLocal]).map some)).1 = .ok false :=
  ⟨(logicCellsCompatible_fanin_budget demoHelpers ∅ fullTile).1 (by decide),
   (logicCellsCompatible_fanin_budget demoHelpers ∅ (fullTile ++ [lutLocal])).2 (by decide)⟩

theorem accounted_of_no_seq (h : Helpers) (cells : List CellInfo)
    (hns : ∀ c ∈ cells, isSeq h c = false) : accounted h cells = dataNames cells := by
  induction cells with
  | nil => rfl
  | cons c rest ih =>
    rw [accounted_cons, dataNames_cons, ih (fun d hd => hns d (List.mem_cons_of_mem _ hd)),
      cellNets, hns c (List.mem_cons_self _ _)]
    simp

theorem controlAgree_of_no_seq (h : Helpers) (cells : List CellInfo)
    (hns : ∀ c ∈ cells, isSeq h c = false) : ControlAgree h cells := by
  intro c1 h1 _ _ s1 _
  rw [hns c1 h1] at s1
  cases s1

theorem cellNets_length_le (h : Helpers) (c : CellInfo) : (cellNets h c).length ≤ 7 := by
  have h1 : (dataNets c).length ≤ 4 := List.length_filterMap_le _ _
  have h2 : (ctrlNets h c).length ≤ 3 :=
    (List.length_filter_le _ _).trans (List.length_filterMap_le _ _)
  unfold cellNets
  rw [List.length_append]
  split
  · omega
  · simp only [List.length_nil]; omega

theorem netNames_card_le (l : List NetInfo) : (netNames l).card ≤ l.length := by
  unfold netNames
  exact (List.toFinset_card_le _).trans (by simp)

theorem accounted_pair_card (h : Helpers) (c1 c2 : CellInfo) :
    (accounted h [c1, c2]).card ≤ 32 := by
  have h1 := cellNets_length_le h c1
  have h2 := cellNets_length_le h c2
  have h3 := netNames_card_le ([c1, c2].flatMap (cellNets h))
  simp only [List.flatMap_cons, List.flatMap_nil, List.length_append, List.length_nil] at h3
  unfold accounted
  simp only [List.flatMap_cons, List.flatMap_nil]
  omega

theorem controlAgree_pair (h : Helpers) (c1 c2 : CellInfo) (hs1 : isSeq h c1 = true)
    (hs2 : isSeq h c2 = true) : ControlAgree h [c1, c2] ↔ SameControl h c1 c2 := by
  rw [controlAgree_cons_seq h c1 [c2] hs1]
  constructor
  · intro ha
    exact ha c2 (List.mem_singleton.mpr rfl) hs2
  · intro ha d hd _
    rw [List.mem_singleton.mp hd]
    exact ha

theorem accounted_perm (h : Helpers) {l1 l2 : List CellInfo} (hp : l1.Perm l2) :
    accounted h l1 = accounted h l2 := by
  ext x
  simp only [accounted, netNames, List.mem_toFinset, List.mem_map, List.mem_flatMap]
  constructor
  · rintro ⟨n, ⟨c, hc, hn⟩, e⟩
    exact ⟨n, ⟨c, hp.mem_iff.mp hc, hn⟩, e⟩
  · rintro ⟨n, ⟨c, hc, hn⟩, e⟩
    exact ⟨n, ⟨c, hp.mem_iff.mpr hc, hn⟩, e⟩

theorem controlAgree_perm (h : Helpers) {l1 l2 : List CellInfo} (hp : l1.Perm l2) :
    ControlAgree h l1 → ControlAgree h l2 := by
  intro ha c1 h1 c2 h2 s1 s2
  exact ha c1 (hp.mem_iff.mpr h1) c2 (hp.mem_iff.mpr h2) s1 s2

/-- C5, as stated, fails: nine combinational cells whose data inputs reference
exactly 32 distinct non-global nets and one global net are rejected, because
the global net on a data input is counted too. -/
theorem fanin_global_exempt_counterexample :
    (∀ c ∈ fullTile ++ [lutGlobal], isSeq demoHelpers c = false) ∧
    (localDataNames demoHelpers (fullTile ++ [lutGlobal])).card = 32 ∧
    ¬ ((logicCellsCompatible demoHelpers ∅ ((fullTile ++ [lutGlobal]).map some)).1 = .ok true ↔
        (localDataNames demoHelpers (fullTile ++ [lutGlobal])).card ≤ 32) := by
  decide

/-- C5, amended: on a list of logic cells none of which is sequential the
checker returns a verdict, which is true if and only if the number of
distinct nets on their `I0..I3` inputs, global nets included, is at most 32. -/
theorem logicCellsCompatible_fanin_combinational (h : Helpers) (locals : Finset IdString)
    (cells : List CellInfo) (hns : ∀ c ∈ cells, isSeq h c = false) :
    ((logicCellsCompatible h locals (cells.map some)).1 = .ok true ↔
      (dataNames cells).card ≤ 32) ∧
    ((logicCellsCompatible h locals (cells.map some)).1 = .ok false ↔
      33 ≤ (dataNames cells).card) := by
  obtain ⟨b, hb, hiff⟩ := logicCellsCompatible_spec h locals cells
  rw [accounted_of_no_seq h cells hns] at hiff
  have hiff2 : b = true ↔ (dataNames cells).card ≤ 32 := by
    rw [hiff]
    exact and_iff_right (controlAgree_of_no_seq h cells hns)
  rw [hb]
  cases b with
  | false =>
    have : ¬ (dataNames cells).card ≤ 32 := fun hle => by simpa using hiff2.mpr hle
    simp only [Except.ok.injEq, Bool.false_eq_true, false_iff, true_iff]
    exact ⟨this, by omega⟩
  | true =>
    have : (dataNames cells).card ≤ 32 := hiff2.mp rfl
    simp only [Except.ok.injEq, Bool.true_eq_false, false_iff, true_iff]
    exact ⟨this, by omega⟩

/-- Witness of the amended C5: the eight combinational cells of `fullTile`
reference 32 nets and are accepted. -/
theorem logicCellsCompatible_fanin_combinational_witness :
    (∀ c ∈ fullTile, isSeq demoHelpers c = false) ∧
    (logicCellsCompatible demoHelpers ∅ (fullTile.map some)).1 = .ok true :=
  ⟨by decide,
   (logicCellsCompatible_fanin_combinational demoHelpers ∅ fullTile (by decide)).1.mpr
     (by decide)⟩

/-- C6, as stated, fails: the sequential cells `lcA` and `lcB` have the same
clock-enable net, yet the checker returns false on them, their clocks differing. -/
theorem control_mismatch_cen_only_counterexample :
    isSeq demoHelpers lcA = true ∧ isSeq demoHelpers lcB = true ∧
    ¬ ((logicCellsCompatible demoHelpers ∅ [some lcA, some lcB]).1 = .ok false ↔
        get_net_or_empty lcA "CEN" ≠ get_net_or_empty lcB "CEN") := by
  decide

/-- C6, amended: for two sequential logic cells the checker returns false if
and only if their `CEN` nets, their `CLK` nets, their `SR` nets or their
`NEG_CLK` values differ (null being a value like any other); so it returns
false whenever the clock-enable nets differ; and the verdict is the same for
the list `[c1, c2]` and the list `[c2, c1]`. -/
theorem logicCellsCompatible_pair (h : Helpers) (locals : Finset IdString)
    (c1 c2 : CellInfo) (hs1 : isSeq h c1 = true) (hs2 : isSeq h c2 = true) :
    ((logicCellsCompatible h locals [some c1, some c2]).1 = .ok false ↔
      ¬ (get_net_or_empty c1 "CEN" = get_net_or_empty c2 "CEN" ∧
         get_net_or_empty c1 "CLK" = get_net_or_empty c2 "CLK" ∧
         get_net_or_empty c1 "SR" = get_net_or_empty c2 "SR" ∧
         negClk h c1 = negClk h c2)) ∧
    (get_net_or_empty c1 "CEN" ≠ get_net_or_empty c2 "CEN" →
      (logicCellsCompatible h locals [some c1, some c2]).1 = .ok false) ∧
    (logicCellsCompatible h locals [some c1, some c2]).1
      = (logicCellsCompatible h locals [some c2, some c1]).1 := by
  have key : ∀ d1 d2 : CellInfo, isSeq h d1 = true → isSeq h d2 = true →
      (logicCellsCompatible h locals [some d1, some d2]).1
        = .ok (decide (SameControl h d1 d2)) := by
    intro d1 d2 t1 t2
    obtain ⟨b, hb, hiff⟩ := logicCellsCompatible_spec h locals [d1, d2]
    rw [controlAgree_pair h d1 d2 t1 t2, and_iff_left (accounted_pair_card h d1 d2)] at hiff
    simp only [List.map_cons, List.map_nil] at hb
    rw [hb]
    congr 1
    by_cases hsc : SameControl h d1 d2
    · simp [hsc, hiff.mpr hsc]
    · have : b = false := by
        cases b with
        | false => rfl
        | true => exact absurd (hiff.mp rfl) hsc
      simp [hsc, this]
  have hfalse : (logicCellsCompatible h locals [some c1, some c2]).1 = .ok false ↔
      ¬ SameControl h c1 c2 := by
    rw [key c1 c2 hs1 hs2]
    simp
  refine ⟨hfalse, fun hne => hfalse.mpr (fun hsc => hne hsc.1), ?_⟩
  rw [key c1 c2 hs1 hs2, key c2 c1 hs2 hs1]
  congr 1
  exact decide_eq_decide.mpr ⟨SameControl.symm, SameControl.symm⟩

/-- Witness of the amended C6: `lcA` and `lcB` are sequential and differ in
their clock nets; the checker returns false on them. -/
theorem logicCellsCompatible_pair_witness :
    isSeq demoHelpers lcA = true ∧ isSeq demoHelpers lcB = true ∧
    (logicCellsCompatible demoHelpers ∅ [some lcA, some lcB]).1 = .ok false :=
  ⟨by decide, by decide,
   (logicCellsCompatible_pair demoHelpers ∅ lcA lcB (by decide) (by decide)).1.mpr
     (by decide)⟩

/-- C7: the checker returns the same verdict on a list of logic cells and on
every permutation of it. -/
theorem logicCellsCompatible_perm (h : Helpers) (locals : Finset IdString)
    (cells1 cells2 : List CellInfo) (hp : cells1.Perm cells2) :
    (logicCellsCompatible h locals (cells1.map some)).1
      = (logicCellsCompatible h locals (cells2.map some)).1 := by
  obtain ⟨b1, hb1, hiff1⟩ := logicCellsCompatible_spec h locals cells1
  obtain ⟨b2, hb2, hiff2⟩ := logicCellsCompatible_spec h locals cells2
  rw [hb1, hb2]
  congr 1
  rw [accounted_perm h hp] at hiff1
  have hagree : ControlAgree h cells1 ↔ ControlAgree h cells2 :=
    ⟨controlAgree_perm h hp, controlAgree_perm h hp.symm⟩
  rw [hagree] at hiff1
  rw [Bool.eq_iff_iff, hiff1, hiff2]

/-- Witness of C7: the mismatching cell first or last, the verdict on
`lcA`, `lcC`, `lcB` is the same. -/
theorem logicCellsCompatible_perm_witness :
    (logicCellsCompatible demoHelpers ∅ ([lcA, lcC, lcB].map some)).1
      = (logicCellsCompatible demoHelpers ∅ ([lcB, lcA, lcC].map some)).1 :=
  logicCellsCompatible_perm demoHelpers ∅ [lcA, lcC, lcB] [lcB, lcA, lcC] (by decide)

/-! ## The entry points: settled claims -/

theorem scanUsers_eq (h : Helpers) (users : List PortRef) :
    ∀ r e : Bool, scanUsers h users (r, e)
      = (r || users.any h.is_reset_port, e || users.any h.is_enable_port) := by
  induction users with
  | nil => intro r e; simp [scanUsers]
  | cons u rest ih =>
    intro r e
    rw [scanUsers, ih, List.any_cons, List.any_cons]
    cases hr : h.is_reset_port u <;> cases he : h.is_enable_port u <;> cases r <;>
      cases e <;> simp

theorem toDigitsCore_getLast (f : Nat) :
    ∀ (n : Nat) (d : Char) (ds : List Char),
      (Nat.toDigitsCore 10 f n (d :: ds)).getLast? = (d :: ds).getLast? := by
  induction f with
  | zero => intro n d ds; rfl
  | succ f ih =>
    intro n d ds
    simp only [Nat.toDigitsCore]
    split
    · rw [List.getLast?_cons_cons]
    · rw [ih, List.getLast?_cons_cons]

/-- The decimal numeral of `n` ends in the digit of `n % 10`. -/
theorem repr_getLast (n : Nat) :
    (Nat.repr n).data.getLast? = some (Nat.digitChar (n % 10)) := by
  show (Nat.toDigitsCore 10 (n + 1) n []).getLast? = _
  simp only [Nat.toDigitsCore]
  split
  · rfl
  · rw [toDigitsCore_getLast]; rfl

theorem endsInDecimal_back (name : IdString) (n : Nat) (hw : EndsInDecimal name n) :
    name.data.getLast? = some (Nat.digitChar (n % 10)) := by
  obtain ⟨pre, e⟩ := hw
  rw [e, String.data_append, List.getLast?_append, repr_getLast]
  rfl

theorem stoi_char_digitChar : ∀ k : Nat, k < 10 →
    stoi_char (Nat.digitChar k) = .ok (k : Int) := by
  decide

theorem gbVerdict_digit (r e : Bool) (n : Nat) :
    gbVerdict r e ((n % 10 : Nat) : Int)
      = (if r && e then false else if r then decide (n % 2 = 0)
         else if e then decide (n % 2 = 1) else true) := by
  have h2 : Int.tmod ((n % 10 : Nat) : Int) 2 = ((n % 2 : Nat) : Int) := by
    rw [show (2 : Int) = ((2 : Nat) : Int) from rfl, ← Int.ofNat_tmod,
      Nat.mod_mod_of_dvd n (by decide : 2 ∣ 10)]
  unfold gbVerdict
  rw [h2]
  have e0 : decide (((n % 2 : Nat) : Int) = 0) = decide (n % 2 = 0) :=
    decide_eq_decide.mpr (by omega)
  have e1 : decide (((n % 2 : Nat) : Int) = 1) = decide (n % 2 = 1) :=
    decide_eq_decide.mpr (by omega)
  rw [e0, e1]

/-- The `SB_GB` branch on a connected output net and a wire name that ends in
the numeral of `n`. -/
theorem isValidBelForCell_gb_result (h : Helpers) (ctx : Context) (locals : Finset IdString)
    (cell : CellInfo) (bel : BelId) (net : NetInfo) (n : Nat)
    (ht : cell.type = "SB_GB")
    (hnet : get_net_or_empty cell "GLOBAL_BUFFER_OUTPUT" = some net)
    (hw : EndsInDecimal (glbWireName ctx bel) n) :
    (isValidBelForCell h ctx locals cell bel).result
      = .ok (if hasReset h net && hasEnable h net then false
             else if hasReset h net then decide (n % 2 = 0)
             else if hasEnable h net then decide (n % 2 = 1) else true) := by
  have hback := endsInDecimal_back _ n hw
  unfold glbWireName at hback
  have hstoi := stoi_char_digitChar (n % 10) (Nat.mod_lt n (by decide))
  unfold get_net_or_empty at hnet
  cases hl : cell.ports.lookup "GLOBAL_BUFFER_OUTPUT" with
  | none => rw [hl] at hnet; cases hnet
  | some port =>
    rw [hl] at hnet
    simp only at hnet
    have t1 : ¬ ("SB_GB" = "ICESTORM_LC") := by decide
    have t2 : ¬ ("SB_GB" = "SB_IO") := by decide
    simp only [isValidBelForCell, ht, t1, t2, if_false, if_true, hl, hnet, hback, hstoi,
      scanUsers_eq, Bool.false_or, gbVerdict_digit]
    rfl

theorem occupants_filter_ne (ctx : Context) (bel : BelId) (hb : ctx.getBelCell bel false = "")
    (bels : List BelId) :
    occupants ctx (bels.filter (fun b => b ≠ bel)) = occupants ctx bels := by
  induction bels with
  | nil => rfl
  | cons b rest ih =>
    unfold occupants at ih ⊢
    by_cases e : b = bel
    · subst e
      have hnone : occupantPtr ctx b = none := by simp [occupantPtr, hb]
      rw [List.filter_cons_of_neg (by simp), List.filterMap_cons_none hnone]
      exact ih
    · rw [List.filter_cons_of_pos (by simpa using e), List.filterMap_cons,
        List.filterMap_cons, ih]

/-- C2: for an `SB_GB` cell whose `GLOBAL_BUFFER_OUTPUT` port has a connected
net and a site whose global-buffer output wire name ends in the decimal
integer `n`, `isValidBelForCell` returns false when the net's users contain
both a reset-type and an enable-type port, returns whether `n` is even when
they contain a reset-type and no enable-type port, returns whether `n` is odd
when they contain an enable-type and no reset-type port, and returns true
when they contain neither. -/
theorem isValidBelForCell_global_buffer_table (h : Helpers) (ctx : Context)
    (locals : Finset IdString) (cell : CellInfo) (bel : BelId) (net : NetInfo) (n : Nat)
    (ht : cell.type = "SB_GB")
    (hnet : get_net_or_empty cell "GLOBAL_BUFFER_OUTPUT" = some net)
    (hw : EndsInDecimal (glbWireName ctx bel) n) :
    (hasReset h net = true → hasEnable h net = true →
      (isValidBelForCell h ctx locals cell bel).result = .ok false) ∧
    (hasReset h net = true → hasEnable h net = false →
      (isValidBelForCell h ctx locals cell bel).result = .ok (decide (n % 2 = 0))) ∧
    (hasReset h net = false → hasEnable h net = true →
      (isValidBelForCell h ctx locals cell bel).result = .ok (decide (n % 2 = 1))) ∧
    (hasReset h net = false → hasEnable h net = false →
      (isValidBelForCell h ctx locals cell bel).result = .ok true) := by
  have hres := isValidBelForCell_gb_result h ctx locals cell bel net n ht hnet hw
  refine ⟨fun hr he => ?_, fun hr he => ?_, fun hr he => ?_, fun hr he => ?_⟩ <;>
    rw [hres, hr, he] <;> rfl

/-- Witness of C2: at the site of wire `glb_netwk_2` a buffer feeding one
reset-type port is accepted (2 is even) and one feeding an enable-type port is
rejected; a buffer feeding both kinds is rejected, and one feeding neither is
accepted, at the site of wire `glb_netwk_3`. -/
theorem isValidBelForCell_global_buffer_table_witness :
    (isValidBelForCell demoHelpers (demoCtx [] []) ∅ (gbCell [⟨"a", "SR"⟩]) 12).result
      = .ok (decide (2 % 2 = 0)) ∧
    (isValidBelForCell demoHelpers (demoCtx [] []) ∅ (gbCell [⟨"a", "CEN"⟩]) 12).result
      = .ok (decide (2 % 2 = 1)) ∧
    (isValidBelForCell demoHelpers (demoCtx [] []) ∅
      (gbCell [⟨"a", "SR"⟩, ⟨"b", "CEN"⟩]) 13).result = .ok false ∧
    (isValidBelForCell demoHelpers (demoCtx [] []) ∅ (gbCell [⟨"a", "I0"⟩]) 13).result
      = .ok true :=
  ⟨(isValidBelForCell_global_buffer_table demoHelpers (demoCtx [] []) ∅ (gbCell [⟨"a", "SR"⟩])
      12 { name := "glb_out", users := [⟨"a", "SR"⟩] } 2 rfl rfl ⟨"glb_netwk_", rfl⟩).2.1
     (by decide) (by decide),
   (isValidBelForCell_global_buffer_table demoHelpers (demoCtx [] []) ∅ (gbCell [⟨"a", "CEN"⟩])
      12 { name := "glb_out", users := [⟨"a", "CEN"⟩] } 2 rfl rfl ⟨"glb_netwk_", rfl⟩).2.2.1
     (by decide) (by decide),
   (isValidBelForCell_global_buffer_table demoHelpers (demoCtx [] []) ∅
      (gbCell [⟨"a", "SR"⟩, ⟨"b", "CEN"⟩]) 13
      { name := "glb_out", users := [⟨"a", "SR"⟩, ⟨"b", "CEN"⟩] } 3 rfl rfl
      ⟨"glb_netwk_", rfl⟩).1 (by decide) (by decide),
   (isValidBelForCell_global_buffer_table demoHelpers (demoCtx [] []) ∅ (gbCell [⟨"a", "I0"⟩])
      13 { name := "glb_out", users := [⟨"a", "I0"⟩] } 3 rfl rfl ⟨"glb_netwk_", rfl⟩).2.2.2
     (by decide) (by decide)⟩

/-- C8, on the code: site 0 of the tile holds `lcA` and the other sites are
empty. Asking whether `lcB` may go to site 0 returns false, because the loop
collects the occupant of the candidate site as well, the very cell `lcB` would
replace. The checker accepts the cells bound to the other sites with `lcB`
added, and `isBelLocationValid` accepts site 0 once `lcB` is bound there. -/
theorem isValidBelForCell_counts_displaced_occupant :
    lcB.type = "ICESTORM_LC" ∧
    ctxOccupied.getBelType 0 = BelType.TYPE_ICESTORM_LC ∧
    otherCells ctxOccupied 0 = [] ∧
    (isValidBelForCell demoHelpers ctxOccupied ∅ lcB 0).result = .ok false ∧
    (logicCellsCompatible demoHelpers ∅ (otherCells ctxOccupied 0 ++ [some lcB])).1
      = .ok true ∧
    (isBelLocationValid demoHelpers ctxReplaced ∅ 0).result = .ok true := by
  decide

/-- Where the candidate site has no occupant, `isValidBelForCell` for an
`ICESTORM_LC` cell at a logic-type site gives what the checker gives on the
cells bound to the other sites of the tile with the cell added. -/
theorem isValidBelForCell_at_empty_site (h : Helpers) (ctx : Context)
    (locals : Finset IdString) (cell : CellInfo) (bel : BelId)
    (ht : cell.type = "ICESTORM_LC")
    (hlc : ctx.getBelType bel = BelType.TYPE_ICESTORM_LC)
    (hb : ctx.getBelCell bel false = "") :
    (isValidBelForCell h ctx locals cell bel).result
      = (logicCellsCompatible h locals (otherCells ctx bel ++ [some cell])).1 := by
  have hres : (isValidBelForCell h ctx locals cell bel).result
      = (logicCellsCompatible h locals (tileCells ctx bel ++ [some cell])).1 := by
    simp [isValidBelForCell, ht, hlc, collectCells_tile]
  rw [hres]
  unfold otherCells tileCells
  rw [occupants_filter_ne ctx bel hb]

/-- C9: for an `SB_IO` cell and any site, `isValidBelForCell` returns true if
and only if the site's package-pin label is a non-empty string (and false
otherwise), and two calls for `SB_IO` cells at sites with the same label give
the same result, whatever the cells, helpers, Bindings and cell tables are. -/
theorem isValidBelForCell_io (h : Helpers) (ctx : Context) (locals : Finset IdString)
    (cell : CellInfo) (bel : BelId) (ht : cell.type = "SB_IO") :
    ((isValidBelForCell h ctx locals cell bel).result = .ok true ↔
      ctx.getBelPackagePin bel ≠ "") ∧
    ((isValidBelForCell h ctx locals cell bel).result = .ok false ↔
      ctx.getBelPackagePin bel = "") ∧
    (∀ (h2 : Helpers) (ctx2 : Context) (locals2 : Finset IdString) (cell2 : CellInfo)
        (bel2 : BelId), cell2.type = "SB_IO" →
        ctx2.getBelPackagePin bel2 = ctx.getBelPackagePin bel →
        (isValidBelForCell h2 ctx2 locals2 cell2 bel2).result
          = (isValidBelForCell h ctx locals cell bel).result) := by
  have t1 : ¬ ("SB_IO" = "ICESTORM_LC") := by decide
  have hres : ∀ (h2 : Helpers) (ctx2 : Context) (locals2 : Finset IdString)
      (cell2 : CellInfo) (bel2 : BelId), cell2.type = "SB_IO" →
      (isValidBelForCell h2 ctx2 locals2 cell2 bel2).result
        = .ok (decide (ctx2.getBelPackagePin bel2 ≠ "")) := by
    intro h2 ctx2 locals2 cell2 bel2 ht2
    simp only [isValidBelForCell, ht2, t1, if_false, if_true]
  refine ⟨?_, ?_, ?_⟩
  · rw [hres h ctx locals cell bel ht]; simp
  · rw [hres h ctx locals cell bel ht]; simp
  · intro h2 ctx2 locals2 cell2 bel2 ht2 hpin
    rw [hres h ctx locals cell bel ht, hres h2 ctx2 locals2 cell2 bel2 ht2, hpin]

/-- Witness of C9: the IO cell is accepted at site 8 (pin `A1`) and rejected
at site 9 (no pin), and another IO cell, under another Binding, gets the
verdict of the first at site 8. -/
theorem isValidBelForCell_io_witness :
    (isValidBelForCell demoHelpers (demoCtx [] []) ∅ ioCell 8).result = .ok true ∧
    (isValidBelForCell demoHelpers (demoCtx [] []) ∅ ioCell 9).result = .ok false ∧
    (isValidBelForCell demoHelpers (demoCtx [(0, "a"), (8, "io")] [("a", some lcA)]) ∅
      ioCellWired 8).result
      = (isValidBelForCell demoHelpers (demoCtx [] []) ∅ ioCell 8).result :=
  ⟨(isValidBelForCell_io demoHelpers (demoCtx [] []) ∅ ioCell 8 rfl).1.mpr (by decide),
   (isValidBelForCell_io demoHelpers (demoCtx [] []) ∅ ioCell 9 rfl).2.1.mpr (by decide),
   (isValidBelForCell_io demoHelpers (demoCtx [] []) ∅ ioCell 8 rfl).2.2 demoHelpers
     (demoCtx [(0, "a"), (8, "io")] [("a", some lcA)]) ∅ ioCellWired 8 rfl rfl⟩

/-- C10: for an `SB_GB` cell whose `GLOBAL_BUFFER_OUTPUT` port has no
connected net, `isValidBelForCell` returns no verdict at any site: the
assertion fails when the port is there with a null net, and the lookup throws
when the cell has no such port; and it returns a boolean whenever the net is
connected and the site's wire name ends in a digit. -/
theorem isValidBelForCell_gb_contract (h : Helpers) (ctx : Context)
    (locals : Finset IdString) (cell : CellInfo) (bel : BelId) (ht : cell.type = "SB_GB") :
    (cell.ports.lookup "GLOBAL_BUFFER_OUTPUT" = some { net := none } →
      (isValidBelForCell h ctx locals cell bel).result = .error Fatal.assertion) ∧
    (cell.ports.lookup "GLOBAL_BUFFER_OUTPUT" = none →
      (isValidBelForCell h ctx locals cell bel).result = .error Fatal.out_of_range) ∧
    (get_net_or_empty cell "GLOBAL_BUFFER_OUTPUT" = none →
      ∀ b : Bool, (isValidBelForCell h ctx locals cell bel).result ≠ .ok b) ∧
    (∀ (net : NetInfo) (c : Char),
      get_net_or_empty cell "GLOBAL_BUFFER_OUTPUT" = some net →
      (glbWireName ctx bel).data.getLast? = some c → c.isDigit = true →
      ∃ b : Bool, (isValidBelForCell h ctx locals cell bel).result = .ok b) := by
  have t1 : ¬ ("SB_GB" = "ICESTORM_LC") := by decide
  have t2 : ¬ ("SB_GB" = "SB_IO") := by decide
  have hnull : cell.ports.lookup "GLOBAL_BUFFER_OUTPUT" = some { net := none } →
      (isValidBelForCell h ctx locals cell bel).result = .error Fatal.assertion := by
    intro hl
    simp only [isValidBelForCell, ht, t1, t2, if_false, if_true, hl]
  have habsent : cell.ports.lookup "GLOBAL_BUFFER_OUTPUT" = none →
      (isValidBelForCell h ctx locals cell bel).result = .error Fatal.out_of_range := by
    intro hl
    simp only [isValidBelForCell, ht, t1, t2, if_false, if_true, hl]
  refine ⟨hnull, habsent, ?_, ?_⟩
  · intro hnone b
    unfold get_net_or_empty at hnone
    cases hl : cell.ports.lookup "GLOBAL_BUFFER_OUTPUT" with
    | none => rw [habsent hl]; exact fun e => by cases e
    | some port =>
      rw [hl] at hnone
      simp only at hnone
      have : port = { net := none } := by cases port; simp_all
      rw [this] at hl
      rw [hnull hl]
      exact fun e => by cases e
  · intro net c hnet hback hdig
    unfold get_net_or_empty at hnet
    unfold glbWireName at hback
    cases hl : cell.ports.lookup "GLOBAL_BUFFER_OUTPUT" with
    | none => rw [hl] at hnet; cases hnet
    | some port =>
      rw [hl] at hnet
      simp only at hnet
      simp only [isValidBelForCell, ht, t1, t2, if_false, if_true, hl, hnet, hback, stoi_char,
        hdig]
      exact ⟨_, rfl⟩

/-- Witness of C10: at site 10 the buffer with an unconnected output port
fails the assertion, the buffer without the port makes the lookup throw, and
a connected buffer gets a verdict. -/
theorem isValidBelForCell_gb_contract_witness :
    (isValidBelForCell demoHelpers (demoCtx [] []) ∅ gbUnconnected 10).result
      = .error Fatal.assertion ∧
    (isValidBelForCell demoHelpers (demoCtx [] []) ∅ gbNoPort 10).result
      = .error Fatal.out_of_range ∧
    (∀ b : Bool,
      (isValidBelForCell demoHelpers (demoCtx [] []) ∅ gbUnconnected 10).result ≠ .ok b) ∧
    (∃ b : Bool, (isValidBelForCell demoHelpers (demoCtx [] []) ∅ (gbCell []) 10).result
      = .ok b) :=
  ⟨(isValidBelForCell_gb_contract demoHelpers (demoCtx [] []) ∅ gbUnconnected 10 rfl).1 rfl,
   (isValidBelForCell_gb_contract demoHelpers (demoCtx [] []) ∅ gbNoPort 10 rfl).2.1 rfl,
   (isValidBelForCell_gb_contract demoHelpers (demoCtx [] []) ∅ gbUnconnected 10 rfl).2.2.1 rfl,
   (isValidBelForCell_gb_contract demoHelpers (demoCtx [] []) ∅ (gbCell []) 10 rfl).2.2.2
     { name := "glb_out", users := [] } '0' rfl (by decide) (by decide)⟩

/-! ## The entry points: further settled claims -/

/-- The `SB_GB` branch on a connected output net and a wire name whose last
character is a digit: the verdict of the `if` chain on the value of that digit. -/
theorem isValidBelForCell_gb_digit (h : Helpers) (ctx : Context) (locals : Finset IdString)
    (cell : CellInfo) (bel : BelId) (net : NetInfo) (c : Char)
    (ht : cell.type = "SB_GB")
    (hnet : get_net_or_empty cell "GLOBAL_BUFFER_OUTPUT" = some net)
    (hback : (glbWireName ctx bel).data.getLast? = some c) (hdig : c.isDigit = true) :
    (isValidBelForCell h ctx locals cell bel).result
      = .ok (gbVerdict (hasReset h net) (hasEnable h net) ((c.toNat : Int) - 48)) := by
  unfold get_net_or_empty at hnet
  unfold glbWireName at hback
  have t1 : ¬ ("SB_GB" = "ICESTORM_LC") := by decide
  have t2 : ¬ ("SB_GB" = "SB_IO") := by decide
  cases hl : cell.ports.lookup "GLOBAL_BUFFER_OUTPUT" with
  | none => rw [hl] at hnet; cases hnet
  | some port =>
    rw [hl] at hnet
    simp only at hnet
    simp only [isValidBelForCell, ht, t1, t2, if_false, if_true, hl, hnet, hback, stoi_char,
      hdig, scanUsers_eq, Bool.false_or]
    rfl

/-- C11, as stated, fails: at a site whose global-buffer output wire name
does not end in a digit, a buffer feeding both kinds of port gets no verdict
(the conversion of the last character throws before the rows are looked at),
and neither does a buffer feeding neither kind. -/
theorem gb_site_independent_counterexample :
    gbBoth.type = "SB_GB" ∧ gbNeither.type = "SB_GB" ∧
    (isValidBelForCell demoHelpers demoCtxNoDigit ∅ gbBoth 10).result
      = .error Fatal.invalid_argument ∧
    (isValidBelForCell demoHelpers demoCtxNoDigit ∅ gbBoth 10).result ≠ .ok false ∧
    (isValidBelForCell demoHelpers demoCtxNoDigit ∅ gbNeither 10).result
      = .error Fatal.invalid_argument ∧
    (isValidBelForCell demoHelpers demoCtxNoDigit ∅ gbNeither 10).result ≠ .ok true := by
  decide

/-- C11, amended: for an `SB_GB` cell with a connected output net and every
candidate site whose global-buffer output wire name ends in a decimal digit,
`isValidBelForCell` returns false when the net's users contain both a
reset-type and an enable-type port and true when they contain neither,
whichever digit it is. -/
theorem isValidBelForCell_gb_site_independent (h : Helpers) (ctx : Context)
    (locals : Finset IdString) (cell : CellInfo) (bel : BelId) (net : NetInfo) (c : Char)
    (ht : cell.type = "SB_GB")
    (hnet : get_net_or_empty cell "GLOBAL_BUFFER_OUTPUT" = some net)
    (hback : (glbWireName ctx bel).data.getLast? = some c) (hdig : c.isDigit = true) :
    (hasReset h net = true → hasEnable h net = true →
      (isValidBelForCell h ctx locals cell bel).result = .ok false) ∧
    (hasReset h net = false → hasEnable h net = false →
      (isValidBelForCell h ctx locals cell bel).result = .ok true) := by
  have hres := isValidBelForCell_gb_digit h ctx locals cell bel net c ht hnet hback hdig
  refine ⟨fun hr he => ?_, fun hr he => ?_⟩ <;> rw [hres, hr, he] <;> rfl

/-- Witness of the amended C11: the buffer feeding both kinds is rejected at
the sites of `glb_netwk_2` and `glb_netwk_3`, the one feeding neither is
accepted at both. -/
theorem isValidBelForCell_gb_site_independent_witness :
    (isValidBelForCell demoHelpers (demoCtx [] []) ∅ gbBoth 12).result = .ok false ∧
    (isValidBelForCell demoHelpers (demoCtx [] []) ∅ gbBoth 13).result = .ok false ∧
    (isValidBelForCell demoHelpers (demoCtx [] []) ∅ gbNeither 12).result = .ok true ∧
    (isValidBelForCell demoHelpers (demoCtx [] []) ∅ gbNeither 13).result = .ok true :=
  ⟨(isValidBelForCell_gb_site_independent demoHelpers (demoCtx [] []) ∅ gbBoth 12
      { name := "glb_out", users := [⟨"a", "SR"⟩, ⟨"b", "CEN"⟩] } '2' rfl rfl (by decide)
      (by decide)).1 (by decide) (by decide),
   (isValidBelForCell_gb_site_independent demoHelpers (demoCtx [] []) ∅ gbBoth 13
      { name := "glb_out", users := [⟨"a", "SR"⟩, ⟨"b", "CEN"⟩] } '3' rfl rfl (by decide)
      (by decide)).1 (by decide) (by decide),
   (isValidBelForCell_gb_site_independent demoHelpers (demoCtx [] []) ∅ gbNeither 12
      { name := "glb_out", users := [⟨"a", "I0"⟩] } '2' rfl rfl (by decide)
      (by decide)).2 (by decide) (by decide),
   (isValidBelForCell_gb_site_independent demoHelpers (demoCtx [] []) ∅ gbNeither 13
      { name := "glb_out", users := [⟨"a", "I0"⟩] } '3' rfl rfl (by decide)
      (by decide)).2 (by decide) (by decide)⟩

theorem occupants_of_empty (ctx : Context) (bels : List BelId)
    (hempty : ∀ b ∈ bels, ctx.getBelCell b false = "") : occupants ctx bels = [] := by
  unfold occupants
  rw [List.filterMap_eq_nil_iff]
  intro b hb
  simp [occupantPtr, hempty b hb]

theorem logicCellsCompatible_nil (h : Helpers) (locals : Finset IdString) :
    (logicCellsCompatible h locals []).1 = .ok true := by
  simp [logicCellsCompatible, logicCellsLoop, clear]

/-- C12: when no cell is bound to the site nor to any site of its tile,
`isBelLocationValid` returns true, for a logic-type site (the checker runs on
the empty list) and for a site of any other type (an unoccupied site is valid). -/
theorem isBelLocationValid_empty_tile (h : Helpers) (ctx : Context)
    (locals : Finset IdString) (bel : BelId)
    (hself : ctx.getBelCell bel false = "")
    (htile : ∀ b ∈ ctx.getBelsAtSameTile bel, ctx.getBelCell b false = "") :
    (isBelLocationValid h ctx locals bel).result = .ok true := by
  by_cases hlc : ctx.getBelType bel = BelType.TYPE_ICESTORM_LC
  · simp only [isBelLocationValid, hlc, if_true, collectCells_tile]
    unfold tileCells
    rw [occupants_of_empty ctx _ htile]
    exact logicCellsCompatible_nil h locals
  · simp only [isBelLocationValid, hlc, if_false, hself, if_true]

/-- Witness of C12: with only the IO site 8 occupied, the logic site 0 (whose
tile is empty) and the unoccupied IO site 9 are valid. -/
theorem isBelLocationValid_empty_tile_witness :
    (isBelLocationValid demoHelpers (demoCtx [(8, "io")] [("io", some ioCell)]) ∅ 0).result
      = .ok true ∧
    (isBelLocationValid demoHelpers (demoCtx [(8, "io")] [("io", some ioCell)]) ∅ 9).result
      = .ok true :=
  ⟨isBelLocationValid_empty_tile demoHelpers (demoCtx [(8, "io")] [("io", some ioCell)]) ∅ 0
     (by decide) (by decide),
   isBelLocationValid_empty_tile demoHelpers (demoCtx [(8, "io")] [("io", some ioCell)]) ∅ 9
     (by decide) (by decide)⟩

/-- C13: for a logic cell with `DFF_ENABLE` true, whatever its `CEN`, `CLK`,
`SR` and `I0..I3` connections and its `NEG_CLK` value, the checker returns
true on the one-element list containing it, and at most 7 nets are accounted. -/
theorem logicCellsCompatible_single (h : Helpers) (locals : Finset IdString) (c : CellInfo)
    (hs : isSeq h c = true) :
    (logicCellsCompatible h locals [some c]).1 = .ok true ∧ (accounted h [c]).card ≤ 7 := by
  have hcard : (accounted h [c]).card ≤ 7 := by
    have h1 := cellNets_length_le h c
    have h2 := netNames_card_le ([c].flatMap (cellNets h))
    simp only [List.flatMap_cons, List.flatMap_nil, List.append_nil] at h2
    unfold accounted
    simp only [List.flatMap_cons, List.flatMap_nil, List.append_nil]
    omega
  refine ⟨?_, hcard⟩
  obtain ⟨b, hb, hiff⟩ := logicCellsCompatible_spec h locals [c]
  have hagree : ControlAgree h [c] := by
    rw [controlAgree_cons_seq h c [] hs]
    intro d hd
    cases hd
  have hb2 : (logicCellsCompatible h locals [some c]).1 = .ok b := hb
  rw [hb2, hiff.mpr ⟨hagree, by omega⟩]

/-- Witness of C13: the sequential cell `lcWide`, with seven nets of its own
and an inverted clock, is accepted alone. -/
theorem logicCellsCompatible_single_witness :
    isSeq demoHelpers lcWide = true ∧
    (logicCellsCompatible demoHelpers ∅ [some lcWide]).1 = .ok true ∧
    (accounted demoHelpers [lcWide]).card ≤ 7 :=
  ⟨by decide, logicCellsCompatible_single demoHelpers ∅ lcWide (by decide)⟩

/-- C16: for a cell whose type is none of `ICESTORM_LC`, `SB_IO` and `SB_GB`,
`isValidBelForCell` returns true at every site under every Binding; and an
`SB_IO` cell at a site with a non-empty package pin is accepted, no
clock-related condition being looked at. -/
theorem isValidBelForCell_default (h : Helpers) (ctx : Context) (locals : Finset IdString)
    (cell : CellInfo) (bel : BelId) :
    (cell.type ≠ "ICESTORM_LC" → cell.type ≠ "SB_IO" → cell.type ≠ "SB_GB" →
      (isValidBelForCell h ctx locals cell bel).result = .ok true) ∧
    (cell.type = "SB_IO" → ctx.getBelPackagePin bel ≠ "" →
      (isValidBelForCell h ctx locals cell bel).result = .ok true) := by
  constructor
  · intro h1 h2 h3
    simp only [isValidBelForCell, h1, h2, h3, if_false]
  · intro ht hpin
    have t1 : ¬ ("SB_IO" = "ICESTORM_LC") := by decide
    simp only [isValidBelForCell, ht, t1, if_false, if_true]
    simp [hpin]

/-- Witness of C16: the block-RAM cell is accepted at a logic site, at an IO
site and at a global-buffer site, and an IO cell with a connected port is
accepted at the IO site with pin `A1`. -/
theorem isValidBelForCell_default_witness :
    (isValidBelForCell demoHelpers (demoCtx [(0, "a")] [("a", some lcA)]) ∅ ramCell 0).result
      = .ok true ∧
    (isValidBelForCell demoHelpers (demoCtx [(0, "a")] [("a", some lcA)]) ∅ ramCell 9).result
      = .ok true ∧
    (isValidBelForCell demoHelpers demoCtxNoDigit ∅ ramCell 10).result = .ok true ∧
    (isValidBelForCell demoHelpers (demoCtx [] []) ∅ ioCellWired 8).result = .ok true :=
  ⟨(isValidBelForCell_default demoHelpers (demoCtx [(0, "a")] [("a", some lcA)]) ∅ ramCell
      0).1 (by decide) (by decide) (by decide),
   (isValidBelForCell_default demoHelpers (demoCtx [(0, "a")] [("a", some lcA)]) ∅ ramCell
      9).1 (by decide) (by decide) (by decide),
   (isValidBelForCell_default demoHelpers demoCtxNoDigit ∅ ramCell 10).1
      (by decide) (by decide) (by decide),
   (isValidBelForCell_default demoHelpers (demoCtx [] []) ∅ ioCellWired 8).2
      rfl (by decide)⟩

/-! ## Locality and repeated calls -/

/-- The collection loop reads the Binding at the listed sites only. -/
theorem collectCells_congr (ctx1 ctx2 : Context) (bels : List BelId)
    (hag : ∀ b ∈ bels, ctx1.getBelCell b false = ctx2.getBelCell b false) :
    ∀ (t : CellTable) (acc : List (Option CellInfo)),
      collectCells ctx1 bels t acc = collectCells ctx2 bels t acc := by
  induction bels with
  | nil => intro t acc; rfl
  | cons b rest ih =>
    intro t acc
    have hb := hag b (List.mem_cons_self _ _)
    have ih2 := ih (fun d hd => hag d (List.mem_cons_of_mem _ hd))
    simp only [collectCells, hb, ih2]

/-- C14: for every cell and site, under two Bindings that give the same
occupant (or none) to every site of the site's tile, `isValidBelForCell`
returns the same result (and leaves the same cell table and static set), so
the occupancy of sites outside the tile has no influence. -/
theorem isValidBelForCell_locality (h : Helpers) (ctx : Context) (locals : Finset IdString)
    (cell : CellInfo) (bel : BelId) (g1 g2 : BelId → Bool → IdString)
    (hag : ∀ b ∈ ctx.getBelsAtSameTile bel, g1 b false = g2 b false) :
    (isValidBelForCell h { ctx with getBelCell := g1 } locals cell bel).result
      = (isValidBelForCell h { ctx with getBelCell := g2 } locals cell bel).result ∧
    isValidBelForCell h { ctx with getBelCell := g1 } locals cell bel
      = isValidBelForCell h { ctx with getBelCell := g2 } locals cell bel := by
  have hc := collectCells_congr { ctx with getBelCell := g1 } { ctx with getBelCell := g2 }
    (ctx.getBelsAtSameTile bel) hag ctx.cells []
  have key : isValidBelForCell h { ctx with getBelCell := g1 } locals cell bel
      = isValidBelForCell h { ctx with getBelCell := g2 } locals cell bel := by
    simp only [isValidBelForCell, hc]
  exact ⟨congrArg Ret.result key, key⟩

/-- Witness of C14: binding a cell to the IO site 8, outside the logic tile,
does not change the verdict for `lcB` at site 1. -/
theorem isValidBelForCell_locality_witness :
    (isValidBelForCell demoHelpers
        { demoCtx [] [("a", some lcA), ("io", some ioCell)] with
          getBelCell := fun b _ => if b = 0 then "a" else "" } ∅ lcB 1).result
      = (isValidBelForCell demoHelpers
        { demoCtx [] [("a", some lcA), ("io", some ioCell)] with
          getBelCell := fun b _ => if b = 0 then "a" else if b = 8 then "io" else "" }
        ∅ lcB 1).result :=
  (isValidBelForCell_locality demoHelpers (demoCtx [] [("a", some lcA), ("io", some ioCell)])
    ∅ lcB 1 (fun b _ => if b = 0 then "a" else "")
    (fun b _ => if b = 0 then "a" else if b = 8 then "io" else "") (by decide)).1

/-- The collection loop leaves every pointer of the cell table as it was. -/
theorem cellPtr_collectCells (ctx : Context) (bels : List BelId) :
    ∀ (t : CellTable) (acc : List (Option CellInfo)) (k : IdString),
      cellPtr (collectCells ctx bels t acc).2 k = cellPtr t k := by
  induction bels with
  | nil => intro t acc k; rfl
  | cons b rest ih =>
    intro t acc k
    by_cases hb : ctx.getBelCell b false = ""
    · simp only [collectCells, hb, ne_eq, not_true_eq_false, if_false]
      exact ih t acc k
    · simp only [collectCells, hb, ne_eq, not_false_eq_true, if_true]
      rw [ih, cellPtr_cellsIndex]

/-- The collected pointers depend on the cell table through its pointers only. -/
theorem occupants_congr_cells (ctx : Context) (t : CellTable)
    (ht : ∀ k, cellPtr t k = cellPtr ctx.cells k) (bels : List BelId) :
    occupants { ctx with cells := t } bels = occupants ctx bels := by
  unfold occupants
  congr 1
  funext b
  simp only [occupantPtr, ht]

/-- The static set on entry plays no part in what the checker returns. -/
theorem logicCellsCompatible_locals_irrelevant (h : Helpers) (locals1 locals2 : Finset IdString)
    (cells : List (Option CellInfo)) :
    logicCellsCompatible h locals1 cells = logicCellsCompatible h locals2 cells := rfl

theorem isValidBelForCell_locals_irrelevant (h : Helpers) (ctx : Context)
    (locals1 locals2 : Finset IdString) (cell : CellInfo) (bel : BelId) :
    (isValidBelForCell h ctx locals1 cell bel).result
      = (isValidBelForCell h ctx locals2 cell bel).result := by
  unfold isValidBelForCell
  repeat' split
  all_goals first
    | rfl
    | (dsimp only
       generalize (ctx.getWireName
          (ctx.getWireBelPin bel PortPin.PIN_GLOBAL_BUFFER_OUTPUT)).data.getLast? = o
       cases o with
       | none => rfl
       | some back =>
         dsimp only
         generalize stoi_char back = r
         cases r <;> rfl)

/-- At a site that is not of logic type, `isValidBelForCell` leaves the cell table alone. -/
theorem isValidBelForCell_cells_of_not_logic (h : Helpers) (ctx : Context)
    (locals : Finset IdString) (cell : CellInfo) (bel : BelId)
    (hlc : ctx.getBelType bel ≠ BelType.TYPE_ICESTORM_LC) :
    (isValidBelForCell h ctx locals cell bel).cells = ctx.cells := by
  unfold isValidBelForCell
  simp only [hlc, ne_eq, not_false_eq_true, if_true]
  repeat' split
  all_goals rfl

theorem isBelLocationValid_locals_irrelevant (h : Helpers) (ctx : Context)
    (locals1 locals2 : Finset IdString) (bel : BelId) :
    (isBelLocationValid h ctx locals1 bel).result
      = (isBelLocationValid h ctx locals2 bel).result := by
  by_cases hlc : ctx.getBelType bel = BelType.TYPE_ICESTORM_LC
  · simp only [isBelLocationValid, hlc, if_true]
    rfl
  · simp only [isBelLocationValid, hlc, if_false]
    by_cases hb : ctx.getBelCell bel false = ""
    · simp only [hb, if_true]
    · simp only [hb, if_false]
      cases hl : ctx.cells.lookup (ctx.getBelCell bel false) with
      | none => rfl
      | some p =>
        cases p with
        | none => rfl
        | some cell => exact isValidBelForCell_locals_irrelevant h ctx locals1 locals2 cell bel

theorem isBelLocationValid_cells_of_not_logic (h : Helpers) (ctx : Context)
    (locals : Finset IdString) (bel : BelId)
    (hlc : ctx.getBelType bel ≠ BelType.TYPE_ICESTORM_LC) :
    (isBelLocationValid h ctx locals bel).cells = ctx.cells := by
  simp only [isBelLocationValid, hlc, if_false]
  by_cases hb : ctx.getBelCell bel false = ""
  · simp only [hb, if_true]
  · simp only [hb, if_false]
    cases hl : ctx.cells.lookup (ctx.getBelCell bel false) with
    | none => rfl
    | some p =>
      cases p with
      | none => rfl
      | some cell => exact isValidBelForCell_cells_of_not_logic h ctx locals cell bel hlc

theorem isBelLocationValid_logic_result (h : Helpers) (ctx : Context)
    (locals : Finset IdString) (bel : BelId)
    (hlc : ctx.getBelType bel = BelType.TYPE_ICESTORM_LC) :
    (isBelLocationValid h ctx locals bel).result
      = (logicCellsCompatible h locals (tileCells ctx bel)).1 := by
  simp only [isBelLocationValid, hlc, if_true, collectCells_tile]

/-- C15: with the static set `locals` carried from call to call as explicit
state, the checker returns the same for every content of that set on entry,
and so does `isBelLocationValid`; a second call of `isBelLocationValid` on the
same site, made in the state the first call left (its cell table and its
static set) under the same Binding, returns what the first returned. -/
theorem isBelLocationValid_idempotent (h : Helpers) (ctx : Context)
    (locals1 locals2 : Finset IdString) (bel : BelId) (cells : List (Option CellInfo)) :
    (logicCellsCompatible h locals1 cells).1 = (logicCellsCompatible h locals2 cells).1 ∧
    (isBelLocationValid h ctx locals1 bel).result
      = (isBelLocationValid h ctx locals2 bel).result ∧
    (isBelLocationValid h
        { ctx with cells := (isBelLocationValid h ctx locals1 bel).cells }
        (isBelLocationValid h ctx locals1 bel).locals bel).result
      = (isBelLocationValid h ctx locals1 bel).result := by
  refine ⟨rfl, isBelLocationValid_locals_irrelevant h ctx locals1 locals2 bel, ?_⟩
  by_cases hlc : ctx.getBelType bel = BelType.TYPE_ICESTORM_LC
  · rw [isBelLocationValid_locals_irrelevant h _ _ locals1]
    have hcells : (isBelLocationValid h ctx locals1 bel).cells
        = (collectCells ctx (ctx.getBelsAtSameTile bel) ctx.cells []).2 := by
      simp only [isBelLocationValid, hlc, if_true]
    rw [hcells]
    generalize ht : (collectCells ctx (ctx.getBelsAtSameTile bel) ctx.cells []).2 = t
    have hptr : ∀ k, cellPtr t k = cellPtr ctx.cells k := by
      intro k
      rw [← ht]
      exact cellPtr_collectCells ctx _ ctx.cells [] k
    rw [isBelLocationValid_logic_result h { ctx with cells := t } locals1 bel hlc,
      isBelLocationValid_logic_result h ctx locals1 bel hlc]
    unfold tileCells
    rw [occupants_congr_cells ctx t hptr]
  · rw [isBelLocationValid_cells_of_not_logic h ctx locals1 bel hlc]
    exact isBelLocationValid_locals_irrelevant h ctx _ locals1 bel

/-! ## The cell table across a call -/

/-- When every occupant of the listed sites has an entry in the cell table,
the collection loop returns the table as it got it. -/
theorem collectCells_snd_of_present (ctx : Context) (bels : List BelId) :
    ∀ (t : CellTable) (acc : List (Option CellInfo)),
      (∀ b ∈ bels, ctx.getBelCell b false ≠ "" →
        (t.lookup (ctx.getBelCell b false)).isSome = true) →
      (collectCells ctx bels t acc).2 = t := by
  induction bels with
  | nil => intro t acc _; rfl
  | cons b rest ih =>
    intro t acc hp
    have hrest := fun d hd => hp d (List.mem_cons_of_mem _ hd)
    by_cases hb : ctx.getBelCell b false = ""
    · simp only [collectCells, hb, ne_eq, not_true_eq_false, if_false]
      exact ih t acc hrest
    · have hsome := hp b (List.mem_cons_self _ _) hb
      have hidx : (cellsIndex t (ctx.getBelCell b false)).2 = t := by
        unfold cellsIndex
        cases hl : t.lookup (ctx.getBelCell b false) with
        | none => rw [hl] at hsome; cases hsome
        | some p => rfl
      simp only [collectCells, hb, ne_eq, not_false_eq_true, if_true, hidx]
      exact ih t _ hrest

/-- C17, on the code: with site 2 bound to a name that has no entry in the
cell table, `isBelLocationValid` at site 0 returns the verdict false and
leaves a cell table with one more entry, a null pointer under that name; so
does `isValidBelForCell` for `lcC` at site 3. -/
theorem cell_table_grows_at_unknown_occupant :
    (isBelLocationValid demoHelpers ctxGhost ∅ 0).result = .ok false ∧
    (isBelLocationValid demoHelpers ctxGhost ∅ 0).cells
      = [("a", some lcA), ("b", some lcB), ("ghost", none)] ∧
    (isBelLocationValid demoHelpers ctxGhost ∅ 0).cells ≠ ctxGhost.cells ∧
    lcC.type = "ICESTORM_LC" ∧
    (isValidBelForCell demoHelpers ctxGhost ∅ lcC 3).result = .ok false ∧
    (isValidBelForCell demoHelpers ctxGhost ∅ lcC 3).cells ≠ ctxGhost.cells := by
  decide

/-- When every occupant of the sites of the tile has an entry in the cell
table, both entry points leave the cell table as it was. -/
theorem cells_unchanged_of_present (h : Helpers) (ctx : Context) (locals : Finset IdString)
    (cell : CellInfo) (bel : BelId)
    (hp : ∀ b ∈ ctx.getBelsAtSameTile bel, ctx.getBelCell b false ≠ "" →
      (ctx.cells.lookup (ctx.getBelCell b false)).isSome = true) :
    (isBelLocationValid h ctx locals bel).cells = ctx.cells ∧
    (isValidBelForCell h ctx locals cell bel).cells = ctx.cells := by
  have hcol := collectCells_snd_of_present ctx (ctx.getBelsAtSameTile bel) ctx.cells [] hp
  by_cases hlc : ctx.getBelType bel = BelType.TYPE_ICESTORM_LC
  · constructor
    · simp only [isBelLocationValid, hlc, if_true, hcol]
    · by_cases ht : cell.type = "ICESTORM_LC"
      · simp only [isValidBelForCell, ht, hlc, if_true, ne_eq, not_true_eq_false, if_false,
          hcol]
      · unfold isValidBelForCell
        simp only [ht, if_false]
        repeat' split
        all_goals rfl
  · exact ⟨isBelLocationValid_cells_of_not_logic h ctx locals bel hlc,
      isValidBelForCell_cells_of_not_logic h ctx locals cell bel hlc⟩

/-! ## Lists with more or fewer cells -/

/-- A list that holds a null pointer is processed the same whatever follows it. -/
theorem loop_append_of_null (h : Helpers) (e : List (Option CellInfo)) :
    ∀ (l : List (Option CellInfo)) (st : TileState),
      (¬ ∃ cells : List CellInfo, l = cells.map some) →
      logicCellsLoop h st (l ++ e) = logicCellsLoop h st l := by
  intro l
  induction l with
  | nil => intro st hn; exact absurd ⟨[], rfl⟩ hn
  | cons p rest ih =>
    intro st hn
    cases p with
    | none => rfl
    | some c =>
      cases hstep : ctrlStep h st c with
      | none => simp only [List.cons_append, logicCellsLoop, hstep]
      | some st1 =>
        simp only [List.cons_append, logicCellsLoop, hstep]
        apply ih
        rintro ⟨cells, hc⟩
        exact hn ⟨c :: cells, by simp [hc]⟩

theorem controlAgree_of_subset (h : Helpers) {l1 l2 : List CellInfo} (hsub : l2 ⊆ l1) :
    ControlAgree h l1 → ControlAgree h l2 := by
  intro ha c1 h1 c2 h2 s1 s2
  exact ha c1 (hsub h1) c2 (hsub h2) s1 s2

theorem accounted_mono (h : Helpers) {l1 l2 : List CellInfo} (hsub : l2 ⊆ l1) :
    accounted h l2 ⊆ accounted h l1 := by
  intro x
  simp only [accounted, netNames, List.mem_toFinset, List.mem_map, List.mem_flatMap]
  rintro ⟨n, ⟨c, hc, hn⟩, e⟩
  exact ⟨n, ⟨c, hsub hc, hn⟩, e⟩

/-- The verdict on a list of non-null cells depends on which cells are in
the list only, not on their order or multiplicity. -/
theorem logicCellsCompatible_of_same_members (h : Helpers) (locals : Finset IdString)
    (l1 l2 : List CellInfo) (h12 : l1 ⊆ l2) (h21 : l2 ⊆ l1) :
    (logicCellsCompatible h locals (l1.map some)).1
      = (logicCellsCompatible h locals (l2.map some)).1 := by
  obtain ⟨b1, hb1, hiff1⟩ := logicCellsCompatible_spec h locals l1
  obtain ⟨b2, hb2, hiff2⟩ := logicCellsCompatible_spec h locals l2
  rw [hb1, hb2]
  congr 1
  have hacc : accounted h l1 = accounted h l2 :=
    Finset.Subset.antisymm (accounted_mono h h12) (accounted_mono h h21)
  have hagree : ControlAgree h l1 ↔ ControlAgree h l2 :=
    ⟨controlAgree_of_subset h h21, controlAgree_of_subset h h12⟩
  rw [Bool.eq_iff_iff, hiff1, hiff2, hacc, hagree]

theorem logicBranch_result (h : Helpers) (ctx : Context)
    (locals : Finset IdString) (cell : CellInfo) (bel : BelId) (ht : cell.type = "ICESTORM_LC")
    (hlc : ctx.getBelType bel = BelType.TYPE_ICESTORM_LC) :
    (isValidBelForCell h ctx locals cell bel).result
      = (logicCellsCompatible h locals (tileCells ctx bel ++ [some cell])).1 := by
  simp [isValidBelForCell, ht, hlc, collectCells_tile]

/-- C18: for a logic-type site `s` (one of the sites of its own tile) and an
`ICESTORM_LC` cell `c` that is bound to `s`, `isValidBelForCell(c, s)` returns
what `isBelLocationValid(s)` returns: the cell appended to the occupant list
is already in it, and that does not change what the checker returns. -/
theorem isValidBelForCell_eq_isBelLocationValid (h : Helpers) (ctx : Context)
    (locals : Finset IdString) (c : CellInfo) (s : BelId)
    (ht : c.type = "ICESTORM_LC")
    (hlc : ctx.getBelType s = BelType.TYPE_ICESTORM_LC)
    (hself : s ∈ ctx.getBelsAtSameTile s)
    (hb : BoundTo ctx s c) :
    (isValidBelForCell h ctx locals c s).result = (isBelLocationValid h ctx locals s).result := by
  rw [logicBranch_result h ctx locals c s ht hlc,
    isBelLocationValid_logic_result h ctx locals s hlc]
  have hmem := mem_tileCells_of_boundTo ctx s s c hself hb
  by_cases hnn : ∃ cells : List CellInfo, tileCells ctx s = cells.map some
  · obtain ⟨cells, hcells⟩ := hnn
    rw [hcells] at hmem ⊢
    have hc : c ∈ cells := by
      obtain ⟨d, hd, e⟩ := List.mem_map.mp hmem
      cases e
      exact hd
    have happ : cells.map some ++ [some c] = (cells ++ [c]).map some := by simp
    rw [happ]
    apply logicCellsCompatible_of_same_members
    · intro x hx
      rcases List.mem_append.mp hx with hx | hx
      · exact hx
      · rw [List.mem_singleton.mp hx]; exact hc
    · intro x hx
      exact List.mem_append_left _ hx
  · unfold logicCellsCompatible
    rw [loop_append_of_null h [some c] (tileCells ctx s) _ hnn]

/-- Witness of C18: with `lcA` at site 0 and `lcC` at site 3, asking for
`lcC` at its own site 3 gives what validating site 3 gives. -/
theorem isValidBelForCell_eq_isBelLocationValid_witness :
    (isValidBelForCell demoHelpers
        (demoCtx [(0, "a"), (3, "c")] [("a", some lcA), ("c", some lcC)]) ∅ lcC 3).result
      = (isBelLocationValid demoHelpers
        (demoCtx [(0, "a"), (3, "c")] [("a", some lcA), ("c", some lcC)]) ∅ 3).result :=
  isValidBelForCell_eq_isBelLocationValid demoHelpers
    (demoCtx [(0, "a"), (3, "c")] [("a", some lcA), ("c", some lcC)]) ∅ lcC 3
    rfl (by decide) (by decide) ⟨by decide, by decide⟩

/-- C19: when the checker accepts a list of logic cells it accepts every
sub-list of it, whichever cells are removed; put the other way round, a list
that has a rejected sub-list is rejected. -/
theorem logicCellsCompatible_sublist (h : Helpers) (locals : Finset IdString)
    (sub cells : List CellInfo) (hsub : sub.Sublist cells) :
    ((logicCellsCompatible h locals (cells.map some)).1 = .ok true →
      (logicCellsCompatible h locals (sub.map some)).1 = .ok true) ∧
    ((logicCellsCompatible h locals (sub.map some)).1 = .ok false →
      (logicCellsCompatible h locals (cells.map some)).1 = .ok false) := by
  obtain ⟨b1, hb1, hiff1⟩ := logicCellsCompatible_spec h locals cells
  obtain ⟨b2, hb2, hiff2⟩ := logicCellsCompatible_spec h locals sub
  have key : b1 = true → b2 = true := by
    intro hv
    obtain ⟨ha, hcard⟩ := hiff1.mp hv
    exact hiff2.mpr ⟨controlAgree_of_subset h hsub.subset ha,
      (Finset.card_le_card (accounted_mono h hsub.subset)).trans hcard⟩
  rw [hb1, hb2]
  constructor
  · intro hv
    rw [key (by simpa using hv)]
  · intro hv
    have hb2f : b2 = false := by simpa using hv
    cases b1 with
    | false => rfl
    | true => rw [key rfl] at hb2f; cases hb2f

/-- Witness of C19: `lcA`, `lcC` with the combinational cell `lutLocal` are
accepted, and so is the list without its first sequential cell `lcA`;
`lcA`, `lcB` are rejected, and so is the list with `lcC` added. -/
theorem logicCellsCompatible_sublist_witness :
    (logicCellsCompatible demoHelpers ∅ ([lcC, lutLocal].map some)).1 = .ok true ∧
    (logicCellsCompatible demoHelpers ∅ ([lcA, lcC, lcB].map some)).1 = .ok false :=
  ⟨(logicCellsCompatible_sublist demoHelpers ∅ [lcC, lutLocal] [lcA, lcC, lutLocal]
      (by decide)).1 (by decide),
   (logicCellsCompatible_sublist demoHelpers ∅ [lcA, lcB] [lcA, lcC, lcB]
      (by decide)).2 (by decide)⟩

end Ice40
